import Mathlib

/-! The FTP decoy session handler (`protocols/strategies/FTP/ftp.go`).

A shallow embedding of `handleFTPConnection`: the banner, the command loop, the
command switch and the events handed to the tracer, followed by theorems about
them.

Go strings are byte sequences; they are modelled as lists of byte values.
The connection is modelled by what it delivers: whether the banner write
succeeds, the lines `ReadString` returns in order (each with the outcome of the
write that answers it), and a read failure after the last line.  The handler's
observable behaviour is the ordered list of actions it performs on the
connection and on the tracer.
-/

namespace FTP

/-! ## Go strings and the `strings` functions the handler calls -/

/-- A Go string: a sequence of bytes, each given by its value. -/
abbrev GoString := List Nat

/-- The bytes of an ASCII string literal of the source. -/
def lit (s : String) : GoString := s.toList.map Char.toNat

/-- The UTF-8 encodings of the runes for which `unicode.IsSpace` holds:
the six ASCII ones (tab, LF, VT, FF, CR, space), then U+0085, U+00A0, U+1680,
U+2000 to U+200A, U+2028, U+2029, U+202F, U+205F and U+3000. -/
def spaceRunes : List GoString :=
  [[9], [10], [11], [12], [13], [32],
   [194, 133], [194, 160],
   [225, 154, 128],
   [226, 128, 128], [226, 128, 129], [226, 128, 130], [226, 128, 131],
   [226, 128, 132], [226, 128, 133], [226, 128, 134], [226, 128, 135],
   [226, 128, 136], [226, 128, 137], [226, 128, 138],
   [226, 128, 168], [226, 128, 169], [226, 128, 175],
   [226, 129, 159],
   [227, 128, 128]]

/-- Strips from the front of `s` every leading sequence taken from `seqs`,
one per unit of fuel. -/
def stripLeading (seqs : List GoString) : Nat → GoString → GoString
  | 0, s => s
  | fuel + 1, s =>
    match seqs.find? (fun q => q.isPrefixOf s) with
    | some q => stripLeading seqs fuel (s.drop q.length)
    | none => s

/-- The part of `strings.TrimSpace` that removes leading white-space runes. -/
def TrimLeft (s : GoString) : GoString :=
  stripLeading spaceRunes s.length s

/-- The part of `strings.TrimSpace` that removes trailing white-space runes:
a trailing rune is white space exactly when the string ends with its encoding. -/
def TrimRight (s : GoString) : GoString :=
  (stripLeading (spaceRunes.map List.reverse) s.length s.reverse).reverse

/-- Go's `strings.TrimSpace`: leading white space is removed first, then
trailing white space of what is left. -/
def TrimSpace (s : GoString) : GoString :=
  TrimRight (TrimLeft s)

/-- Upper case of one ASCII byte: `a`..`z` go to `A`..`Z`, every other byte is
unchanged. -/
def upperByte (b : Nat) : Nat :=
  if 97 ≤ b ∧ b ≤ 122 then b - 32 else b

/-- What `strings.ToUpper` emits for a pending run of non-ASCII bytes. -/
def flushRun (U : GoString → GoString) (run : GoString) : GoString :=
  if run = [] then [] else U run

/-- Worker of `ToUpper`: `run` is the run of non-ASCII bytes met so far. -/
def upperFrom (U : GoString → GoString) : GoString → GoString → GoString
  | run, [] => flushRun U run
  | run, b :: rest =>
    if b < 128 then flushRun U run ++ upperByte b :: upperFrom U [] rest
    else upperFrom U (run ++ [b]) rest

/-- Go's `strings.ToUpper`.  An ASCII byte is always a rune of its own and is
mapped to its ASCII upper case.  What a maximal run of non-ASCII bytes becomes
is decided by UTF-8 decoding and by the Unicode case tables of
`unicode.ToUpper`; those tables are the parameter `U`. -/
def ToUpper (U : GoString → GoString) (s : GoString) : GoString :=
  upperFrom U [] s

/-- Go's `strings.HasPrefix`. -/
def HasPrefix (s pre : GoString) : Bool :=
  pre.isPrefixOf s

/-- The slice expression `s[i:]`: `none` stands for the run-time panic Go
raises when `i` exceeds `len(s)`. -/
def sliceFrom (s : GoString) (i : Nat) : Option GoString :=
  if i ≤ s.length then some (s.drop i) else none

/-- An instance of the case tables for witnesses: a script without case, in
which `ToUpper` leaves every run of non-ASCII bytes as it is. -/
def caseless : GoString → GoString := fun run => run

/-! ## Configuration, events and the connection -/

/-- The fields of `parser.BeelzebubServiceConfiguration` the handler reads. -/
structure BeelzebubServiceConfiguration where
  Banner : GoString
  Description : GoString
  DeadlineTimeoutSeconds : Int
  deriving DecidableEq, Repr

/-- Modelled from the spec: the status tags of the tracer package
(`tracer.Start`, `tracer.Interaction`, `tracer.Stateless`, `tracer.End`), whose
declaration is not part of the handler's file. -/
inductive Status where
  | Start
  | Interaction
  | Stateless
  | End
  deriving DecidableEq, Repr

/-- Modelled from the spec: the protocol tag `tracer.FTP`, the only protocol
constant the handler uses. -/
inductive Protocol where
  | FTP
  deriving DecidableEq, Repr

/-- The fields of `tracer.Event` the handler fills; a string field the source
leaves out of a literal has Go's zero value, the empty string. -/
structure Event where
  Msg : GoString
  Protocol : Protocol
  Command : GoString
  Status : Status
  RemoteAddr : GoString
  SourceIp : GoString
  SourcePort : GoString
  ID : GoString
  Description : GoString
  User : GoString
  Password : GoString
  deriving DecidableEq, Repr

/-- What the handler is given besides the configuration: the connection and
the values it obtains from library calls once per session. -/
structure Conn where
  /-- The text `conn.RemoteAddr().String()` returns. -/
  remoteAddr : GoString
  /-- The host `net.SplitHostPort` returns for `remoteAddr`. -/
  host : GoString
  /-- The port `net.SplitHostPort` returns for `remoteAddr`. -/
  port : GoString
  /-- The text `uuid.New().String()` returns. -/
  sessionID : GoString
  /-- Whether the write of the banner succeeds. -/
  bannerWriteOk : Bool
  /-- The lines `reader.ReadString` returns without error, in order, each with
  whether the write of its response succeeds; after the last one the read
  fails (end of input, reset, or the deadline). -/
  input : List (GoString × Bool)
  deriving DecidableEq, Repr

/-- One observable step of the handler. -/
inductive Action where
  /-- The call `conn.SetDeadline`, with the configured number of seconds. -/
  | setDeadline (seconds : Int)
  /-- The call `conn.Write` with these bytes. -/
  | write (data : GoString)
  /-- The call `tr.TraceEvent` with this event. -/
  | trace (e : Event)
  /-- The call `reader.ReadString`: the line it returned, or `none` on error. -/
  | read (line : Option GoString)
  /-- A run-time panic (slice bounds out of range). -/
  | panic
  /-- The deferred `conn.Close()`. -/
  | close
  deriving DecidableEq, Repr

/-! ## The events of the source -/

/-- The event of lines 59-68. -/
def startEvent (conn : Conn) (servConf : BeelzebubServiceConfiguration) : Event :=
  { Msg := lit "New FTP connection", Protocol := Protocol.FTP, Command := [],
    Status := Status.Start, RemoteAddr := conn.remoteAddr, SourceIp := conn.host,
    SourcePort := conn.port, ID := conn.sessionID,
    Description := servConf.Description, User := [], Password := [] }

/-- The event of lines 84-95. -/
def commandEvent (conn : Conn) (servConf : BeelzebubServiceConfiguration)
    (command username : GoString) : Event :=
  { Msg := lit "FTP Command", Protocol := Protocol.FTP, Command := command,
    Status := Status.Interaction, RemoteAddr := conn.remoteAddr, SourceIp := conn.host,
    SourcePort := conn.port, ID := conn.sessionID,
    Description := servConf.Description, User := username, Password := [] }

/-- The event of lines 114-126. -/
def loginEvent (conn : Conn) (servConf : BeelzebubServiceConfiguration)
    (command username password : GoString) : Event :=
  { Msg := lit "FTP Login Attempt", Protocol := Protocol.FTP, Command := command,
    Status := Status.Stateless, RemoteAddr := conn.remoteAddr, SourceIp := conn.host,
    SourcePort := conn.port, ID := conn.sessionID,
    Description := servConf.Description, User := username, Password := password }

/-- The event of lines 172-181. -/
def endEvent (conn : Conn) (servConf : BeelzebubServiceConfiguration) : Event :=
  { Msg := lit "FTP connection closed", Protocol := Protocol.FTP, Command := [],
    Status := Status.End, RemoteAddr := conn.remoteAddr, SourceIp := conn.host,
    SourcePort := conn.port, ID := conn.sessionID,
    Description := servConf.Description, User := [], Password := [] }

/-! ## The command switch (lines 100-163) -/

/-- The cases of the switch, `default` included. -/
inductive Row where
  | USER | PASS | SYST | PWD | CWD | LIST | RETR | STOR | PASV | TYPE | QUIT
  | default
  deriving DecidableEq, Repr

/-- The condition of each case, on `cmdUpper`. -/
def caseCond (cmdUpper : GoString) : Row → Bool
  | Row.USER => HasPrefix cmdUpper (lit "USER ")
  | Row.PASS => HasPrefix cmdUpper (lit "PASS ")
  | Row.SYST => cmdUpper == lit "SYST"
  | Row.PWD => cmdUpper == lit "PWD"
  | Row.CWD => HasPrefix cmdUpper (lit "CWD ")
  | Row.LIST => cmdUpper == lit "LIST" || HasPrefix cmdUpper (lit "LIST ")
  | Row.RETR => HasPrefix cmdUpper (lit "RETR ")
  | Row.STOR => HasPrefix cmdUpper (lit "STOR ")
  | Row.PASV => cmdUpper == lit "PASV"
  | Row.TYPE => HasPrefix cmdUpper (lit "TYPE ")
  | Row.QUIT => cmdUpper == lit "QUIT"
  | Row.default => true

/-- The cases in the order the source writes them. -/
def sourceOrder : List Row :=
  [Row.USER, Row.PASS, Row.SYST, Row.PWD, Row.CWD, Row.LIST, Row.RETR, Row.STOR,
   Row.PASV, Row.TYPE, Row.QUIT]

/-- The case a switch with the given order of cases takes: the first whose
condition holds, `default` when none does. -/
def selectRowIn (order : List Row) (cmdUpper : GoString) : Row :=
  (order.find? (caseCond cmdUpper)).getD Row.default

/-- The case the source's switch takes. -/
def selectRow (cmdUpper : GoString) : Row :=
  selectRowIn sourceOrder cmdUpper

/-- What the body of a case does. -/
inductive Dispatch where
  /-- The case leaves `username` and `response` so, after tracing `events`;
  control reaches the write of line 166. -/
  | respond (username : GoString) (events : List Event) (response : GoString)
  /-- The `QUIT` case: it writes `goodbye` itself and returns. -/
  | quit (goodbye : GoString)
  /-- A slice expression was out of range. -/
  | panic
  deriving DecidableEq, Repr

/-- The body of the case `row`, for the trimmed line `command` and the
`username` in force. -/
def caseBody (conn : Conn) (servConf : BeelzebubServiceConfiguration)
    (username command : GoString) : Row → Dispatch
  | Row.USER =>
    if command.length > 5 then
      match sliceFrom command 5 with
      | some arg =>
        Dispatch.respond (TrimSpace arg) []
          (lit "331 Password required for " ++ TrimSpace arg ++ lit "\r\n")
      | none => Dispatch.panic
    else
      Dispatch.respond username []
        (lit "331 Password required for " ++ username ++ lit "\r\n")
  | Row.PASS =>
    if command.length > 5 then
      match sliceFrom command 5 with
      | some arg =>
        Dispatch.respond username
          [loginEvent conn servConf command username (TrimSpace arg)]
          (lit "230 Login successful\r\n")
      | none => Dispatch.panic
    else
      Dispatch.respond username [loginEvent conn servConf command username []]
        (lit "230 Login successful\r\n")
  | Row.SYST => Dispatch.respond username [] (lit "215 UNIX Type: L8\r\n")
  | Row.PWD => Dispatch.respond username [] (lit "257 \"/\" is current directory\r\n")
  | Row.CWD => Dispatch.respond username [] (lit "250 Directory changed successfully\r\n")
  | Row.LIST =>
    Dispatch.respond username []
      (lit "150 Opening ASCII mode data connection for file list\r\n"
        ++ lit "drwxr-xr-x  2 ftp ftp 4096 Jan 01 00:00 files\r\n"
        ++ lit "-rw-r--r--  1 ftp ftp 1234 Jan 01 00:00 readme.txt\r\n"
        ++ lit "226 Transfer complete\r\n")
  | Row.RETR => Dispatch.respond username [] (lit "550 File not found\r\n")
  | Row.STOR => Dispatch.respond username [] (lit "550 Permission denied\r\n")
  | Row.PASV =>
    Dispatch.respond username [] (lit "227 Entering Passive Mode (127,0,0,1,195,149)\r\n")
  | Row.TYPE => Dispatch.respond username [] (lit "200 Type set to binary\r\n")
  | Row.QUIT => Dispatch.quit (lit "221 Goodbye\r\n")
  | Row.default => Dispatch.respond username [] (lit "502 Command not implemented\r\n")

/-- The switch of lines 100-163 on a line as read: `command` is the trimmed
line, `cmdUpper` its upper case (lines 80-81). -/
def dispatch (U : GoString → GoString) (conn : Conn)
    (servConf : BeelzebubServiceConfiguration) (username line : GoString) : Dispatch :=
  caseBody conn servConf username (TrimSpace line)
    (selectRow (ToUpper U (TrimSpace line)))

/-! ## The session (lines 41-182) -/

/-- The command loop of lines 74-169 and what follows it, from the `username`
in force and the lines still to come. -/
def commandLoop (U : GoString → GoString) (conn : Conn)
    (servConf : BeelzebubServiceConfiguration) :
    GoString → List (GoString × Bool) → List Action
  | _, [] =>
    [Action.read none, Action.trace (endEvent conn servConf), Action.close]
  | username, (line, writeOk) :: rest =>
    Action.read (some line) ::
    Action.trace (commandEvent conn servConf (TrimSpace line) username) ::
    match dispatch U conn servConf username line with
    | Dispatch.quit goodbye => [Action.write goodbye, Action.close]
    | Dispatch.panic => [Action.panic, Action.close]
    | Dispatch.respond username1 events response =>
      events.map Action.trace ++
        Action.write response ::
          (if writeOk then commandLoop U conn servConf username1 rest
           else [Action.trace (endEvent conn servConf), Action.close])

/-- The banner of lines 50-53. -/
def bannerText (servConf : BeelzebubServiceConfiguration) : GoString :=
  if servConf.Banner = [] then lit "220 FTP Server Ready" else servConf.Banner

/-- The handler `handleFTPConnection`: every action it performs, in order. -/
def handleFTPConnection (U : GoString → GoString) (conn : Conn)
    (servConf : BeelzebubServiceConfiguration) : List Action :=
  Action.setDeadline servConf.DeadlineTimeoutSeconds ::
  Action.write (bannerText servConf ++ lit "\r\n") ::
  (if conn.bannerWriteOk then
    Action.trace (startEvent conn servConf) :: commandLoop U conn servConf [] conn.input
   else [Action.close])

/-! ## Observations on a list of actions -/

/-- The events handed to the tracer, in order. -/
def eventsOf (acts : List Action) : List Event :=
  acts.filterMap (fun a => match a with
    | Action.trace e => some e
    | _ => none)

/-- The byte strings handed to `conn.Write`, in order. -/
def writesOf (acts : List Action) : List GoString :=
  acts.filterMap (fun a => match a with
    | Action.write d => some d
    | _ => none)

/-- The lines obtained from `reader.ReadString`, in order. -/
def readsOf (acts : List Action) : List GoString :=
  acts.filterMap (fun a => match a with
    | Action.read (some l) => some l
    | _ => none)

/-- How many events of the list carry the status `st`. -/
def countStatus (st : Status) (es : List Event) : Nat :=
  es.countP (fun e => e.Status = st)

/-- The events with status `Interaction`: the command events of lines 84-95. -/
def commandEventsOf (acts : List Action) : List Event :=
  (eventsOf acts).filter (fun e => e.Status = Status.Interaction)

/-- Whether the command loop, run on these lines, comes to a line that takes
the `QUIT` case: lines after a failed write are never reached. -/
def quitReached (U : GoString → GoString) : List (GoString × Bool) → Bool
  | [] => false
  | (line, writeOk) :: rest =>
    if selectRow (ToUpper U (TrimSpace line)) = Row.QUIT then true
    else if writeOk then quitReached U rest
    else false

/-- The verb of a trimmed line: what stands before its first space. -/
def verbOf (command : GoString) : GoString :=
  command.takeWhile (fun b => b ≠ 32)

/-! ## Sample sessions -/

/-- A configuration without banner. -/
def sampleConf : BeelzebubServiceConfiguration :=
  { Banner := [], Description := lit "FTP decoy", DeadlineTimeoutSeconds := 60 }

/-- A connection from 10.0.0.9:5555 delivering the given lines. -/
def sampleConn (bannerWriteOk : Bool) (input : List (GoString × Bool)) : Conn :=
  { remoteAddr := lit "10.0.0.9:5555", host := lit "10.0.0.9", port := lit "5555",
    sessionID := lit "7d9a", bannerWriteOk := bannerWriteOk, input := input }

/-! ## Notions used to state the properties -/

/-- The text made of the given lines, each followed by CRLF. -/
def crlfLines : List GoString → GoString
  | [] => []
  | l :: ls => l ++ lit "\r\n" ++ crlfLines ls

/-- The username the loop holds once the line is dispatched: the one the case
leaves, and the one in force when the case returns without leaving one. -/
def nextUsername (U : GoString → GoString) (conn : Conn)
    (servConf : BeelzebubServiceConfiguration) (username line : GoString) : GoString :=
  match dispatch U conn servConf username line with
  | Dispatch.respond u _ _ => u
  | _ => username

/-- The fields every event of a session is expected to share: the session
identifier, the remote address, host and port, the configured description and
the protocol tag. -/
def carriesSession (conn : Conn) (servConf : BeelzebubServiceConfiguration)
    (e : Event) : Prop :=
  e.ID = conn.sessionID ∧ e.RemoteAddr = conn.remoteAddr ∧ e.SourceIp = conn.host ∧
  e.SourcePort = conn.port ∧ e.Description = servConf.Description ∧
  e.Protocol = Protocol.FTP

/-- The events C12 expects for the lines `lines`, read while `username` is in
force: for each line in order its command event, carrying the trimmed line and
the username in force before the line is dispatched, followed at once by one
login event exactly when the line takes the `PASS` case. -/
def expectedEvents (U : GoString → GoString) (conn : Conn)
    (servConf : BeelzebubServiceConfiguration) : GoString → List GoString → List Event
  | _, [] => []
  | username, line :: rest =>
    commandEvent conn servConf (TrimSpace line) username ::
      ((if selectRow (ToUpper U (TrimSpace line)) = Row.PASS then
          [loginEvent conn servConf (TrimSpace line) username
            (TrimSpace ((TrimSpace line).drop 5))]
        else []) ++
       expectedEvents U conn servConf (nextUsername U conn servConf username line) rest)

/-- The text a case answers with: the response it leaves for the write of line
166, or the goodbye line the `QUIT` case writes itself. -/
def responseText : Dispatch → GoString
  | Dispatch.respond _ _ response => response
  | Dispatch.quit goodbye => goodbye
  | Dispatch.panic => []

/-- A byte string without ASCII letters. -/
def noLetters (q : GoString) : Prop :=
  ∀ x ∈ q, ¬ (65 ≤ x ∧ x ≤ 90) ∧ ¬ (97 ≤ x ∧ x ≤ 122)

/-- What the handler relies on in the case tables of `unicode.ToUpper`: the
upper case of a run of non-ASCII bytes holds no space, and it holds no more
ASCII bytes than the run has bytes.  (In Go every rune of such a run takes two
bytes or more, or is an invalid byte, and becomes one rune; the only ASCII
results are `S` and `I`, for U+017F and U+0131.) -/
def caseTablesKeepLength (U : GoString → GoString) : Prop :=
  ∀ run : GoString, (∀ b ∈ run, 128 ≤ b) →
    32 ∉ U run ∧ ((U run).filter (fun b => b < 128)).length ≤ run.length

/-- The switch of lines 100-163 with its cases written in the order `order`. -/
def dispatchIn (order : List Row) (U : GoString → GoString) (conn : Conn)
    (servConf : BeelzebubServiceConfiguration) (username line : GoString) : Dispatch :=
  caseBody conn servConf username (TrimSpace line)
    (selectRowIn order (ToUpper U (TrimSpace line)))

/-- The first four bytes the condition of a case asks of the upper-cased
line (three for `PWD`). -/
def rowKey : Row → GoString
  | Row.USER => [85, 83, 69, 82]
  | Row.PASS => [80, 65, 83, 83]
  | Row.SYST => [83, 89, 83, 84]
  | Row.PWD => [80, 87, 68]
  | Row.CWD => [67, 87, 68, 32]
  | Row.LIST => [76, 73, 83, 84]
  | Row.RETR => [82, 69, 84, 82]
  | Row.STOR => [83, 84, 79, 82]
  | Row.PASV => [80, 65, 83, 86]
  | Row.TYPE => [84, 89, 80, 69]
  | Row.QUIT => [81, 85, 73, 84]
  | Row.default => []

/-! ## The string functions -/

theorem lit_crlf : lit "\r\n" = [13, 10] := by decide

theorem lit_USER : lit "USER " = [85, 83, 69, 82, 32] := by decide

theorem lit_PASS : lit "PASS " = [80, 65, 83, 83, 32] := by decide

theorem lit_SYST : lit "SYST" = [83, 89, 83, 84] := by decide

theorem lit_PWD : lit "PWD" = [80, 87, 68] := by decide

theorem lit_CWD : lit "CWD " = [67, 87, 68, 32] := by decide

theorem lit_LIST : lit "LIST" = [76, 73, 83, 84] := by decide

theorem lit_LISTsp : lit "LIST " = [76, 73, 83, 84, 32] := by decide

theorem lit_RETR : lit "RETR " = [82, 69, 84, 82, 32] := by decide

theorem lit_STOR : lit "STOR " = [83, 84, 79, 82, 32] := by decide

theorem lit_PASV : lit "PASV" = [80, 65, 83, 86] := by decide

theorem lit_TYPE : lit "TYPE " = [84, 89, 80, 69, 32] := by decide

theorem lit_QUIT : lit "QUIT" = [81, 85, 73, 84] := by decide

/-- A byte whose upper case is ASCII is ASCII. -/
theorem upperByte_lt (b : Nat) (h : upperByte b < 128) : b < 128 := by
  unfold upperByte at h
  split at h <;> omega

theorem flushRun_nil (U : GoString → GoString) : flushRun U [] = [] := by
  simp [flushRun]

/-- On a leading stretch of ASCII bytes `ToUpper` works byte by byte, whatever
the case tables say. -/
theorem ToUpper_ascii_append (U : GoString → GoString) (p rest : GoString)
    (hp : ∀ b ∈ p, b < 128) :
    ToUpper U (p ++ rest) = p.map upperByte ++ ToUpper U rest := by
  induction p with
  | nil => rfl
  | cons b p ih =>
    have hb : b < 128 := hp b (by simp)
    have ih1 := ih (fun x hx => hp x (by simp [hx]))
    simp only [ToUpper] at ih1 ⊢
    simp [upperFrom, hb, flushRun_nil, ih1]

theorem ToUpper_nil (U : GoString → GoString) : ToUpper U [] = [] := by
  simp [ToUpper, upperFrom, flushRun_nil]

/-- A string of ASCII bytes is upper-cased byte by byte. -/
theorem ToUpper_ascii (U : GoString → GoString) (p : GoString)
    (hp : ∀ b ∈ p, b < 128) : ToUpper U p = p.map upperByte := by
  have := ToUpper_ascii_append U p [] hp
  simpa [ToUpper_nil] using this

/-- When the first `n` bytes of `c` read `pat` in upper case and `pat` is
ASCII, the upper case of `c` starts with `pat`. -/
theorem ToUpper_head (U : GoString → GoString) (n : Nat) (c pat : GoString)
    (h : (c.take n).map upperByte = pat) (hpat : ∀ b ∈ pat, b < 128) :
    ToUpper U c = pat ++ ToUpper U (c.drop n) := by
  have hasc : ∀ b ∈ c.take n, b < 128 := by
    intro b hb
    apply upperByte_lt
    apply hpat
    rw [← h]
    exact List.mem_map_of_mem _ hb
  have := ToUpper_ascii_append U (c.take n) (c.drop n) hasc
  rw [List.take_append_drop, h] at this
  exact this

/-- With enough fuel, what `stripLeading` returns starts with none of the
sequences. -/
theorem stripLeading_stable (seqs : List GoString) (hne : ∀ q ∈ seqs, q ≠ []) :
    ∀ (fuel : Nat) (s : GoString), s.length ≤ fuel →
      seqs.find? (fun q => q.isPrefixOf (stripLeading seqs fuel s)) = none := by
  intro fuel
  induction fuel with
  | zero =>
    intro s hs
    have : s = [] := List.length_eq_zero.mp (Nat.le_zero.mp hs)
    subst this
    rw [List.find?_eq_none]
    intro q hq
    have := hne q hq
    cases q with
    | nil => exact absurd rfl this
    | cons a q => simp [stripLeading]
  | succ fuel ih =>
    intro s hs
    unfold stripLeading
    cases h : seqs.find? (fun q => q.isPrefixOf s) with
    | none => simpa using h
    | some q =>
      simp only
      apply ih
      have hq : q ∈ seqs := List.mem_of_find?_eq_some h
      have := hne q hq
      have hl : 0 < q.length := List.length_pos.mpr this
      rw [List.length_drop]
      omega

/-- What `TrimRight` returns does not end with a space. -/
theorem TrimRight_not_space (s t : GoString) : TrimRight s ≠ t ++ [32] := by
  intro h
  have hst := stripLeading_stable (spaceRunes.map List.reverse)
    (by simp [spaceRunes]) s.length s.reverse (by simp)
  unfold TrimRight at h
  have h2 : stripLeading (spaceRunes.map List.reverse) s.length s.reverse
      = 32 :: t.reverse := by
    have := congrArg List.reverse h
    simpa using this
  rw [h2] at hst
  simp [spaceRunes] at hst

/-- What `TrimSpace` returns does not end with a space. -/
theorem TrimSpace_not_space (s t : GoString) : TrimSpace s ≠ t ++ [32] :=
  TrimRight_not_space _ t

/-! ## The switch -/

theorem selectRowIn_nil (u : GoString) : selectRowIn [] u = Row.default := rfl

theorem selectRowIn_cons (r : Row) (rs : List Row) (u : GoString) :
    selectRowIn (r :: rs) u = if caseCond u r then r else selectRowIn rs u := by
  unfold selectRowIn
  rw [List.find?_cons]
  cases caseCond u r <;> simp

theorem sliceFrom_of_lt (s : GoString) (h : s.length > 5) :
    sliceFrom s 5 = some (s.drop 5) := by
  unfold sliceFrom
  rw [if_pos (by omega)]

/-- The body of a case never panics; it returns through `quit` exactly in the
`QUIT` case, and the events of a responding case are login events. -/
theorem caseBody_sound (conn : Conn) (servConf : BeelzebubServiceConfiguration)
    (username command : GoString) (row : Row) :
    match caseBody conn servConf username command row with
    | Dispatch.quit goodbye => row = Row.QUIT ∧ goodbye = lit "221 Goodbye\r\n"
    | Dispatch.panic => False
    | Dispatch.respond _ evs _ =>
      row ≠ Row.QUIT ∧ ∀ e ∈ evs, e.Status = Status.Stateless := by
  cases row <;> simp [caseBody]
  · by_cases h : 5 < command.length
    · simp [h, sliceFrom_of_lt]
    · simp [h]
  · by_cases h : 5 < command.length
    · simp [h, sliceFrom_of_lt, loginEvent]
    · simp [h, loginEvent]

/-! ## Observations -/

@[simp]
theorem eventsOf_nil : eventsOf [] = [] := rfl

@[simp]
theorem eventsOf_trace (e : Event) (l : List Action) :
    eventsOf (Action.trace e :: l) = e :: eventsOf l := rfl

@[simp]
theorem eventsOf_write (d : GoString) (l : List Action) :
    eventsOf (Action.write d :: l) = eventsOf l := rfl

@[simp]
theorem eventsOf_read (d : Option GoString) (l : List Action) :
    eventsOf (Action.read d :: l) = eventsOf l := rfl

@[simp]
theorem eventsOf_close (l : List Action) : eventsOf (Action.close :: l) = eventsOf l := rfl

@[simp]
theorem eventsOf_panic (l : List Action) : eventsOf (Action.panic :: l) = eventsOf l := rfl

@[simp]
theorem eventsOf_setDeadline (n : Int) (l : List Action) :
    eventsOf (Action.setDeadline n :: l) = eventsOf l := rfl

@[simp]
theorem eventsOf_append (l1 l2 : List Action) :
    eventsOf (l1 ++ l2) = eventsOf l1 ++ eventsOf l2 := by
  simp [eventsOf]

@[simp]
theorem eventsOf_map_trace (es : List Event) : eventsOf (es.map Action.trace) = es := by
  induction es with
  | nil => rfl
  | cons e es ih => simp [ih]

/-- No event of a list whose statuses all differ from `st` is counted. -/
theorem countStatus_eq_zero (st : Status) (es : List Event)
    (h : ∀ e ∈ es, e.Status ≠ st) : countStatus st es = 0 := by
  unfold countStatus
  rw [List.countP_eq_zero]
  intro e he
  simpa using h e he

theorem countStatus_append (st : Status) (es fs : List Event) :
    countStatus st (es ++ fs) = countStatus st es + countStatus st fs := by
  simp [countStatus]

/-! ## The command loop -/

/-- The events of the command loop: command and login events, closed by the
end event unless a `QUIT` line is reached. -/
theorem loop_events (U : GoString → GoString) (conn : Conn)
    (servConf : BeelzebubServiceConfiguration) :
    ∀ (input : List (GoString × Bool)) (username : GoString),
      ∃ mid, (∀ e ∈ mid, e.Status = Status.Interaction ∨ e.Status = Status.Stateless) ∧
        eventsOf (commandLoop U conn servConf username input)
          = mid ++ (if quitReached U input then [] else [endEvent conn servConf]) := by
  intro input
  induction input with
  | nil =>
    intro username
    exact ⟨[], by simp, by simp [commandLoop, quitReached]⟩
  | cons p rest ih =>
    obtain ⟨line, ok⟩ := p
    intro username
    have hs := caseBody_sound conn servConf username (TrimSpace line)
      (selectRow (ToUpper U (TrimSpace line)))
    cases hd : caseBody conn servConf username (TrimSpace line)
      (selectRow (ToUpper U (TrimSpace line))) with
    | quit goodbye =>
      rw [hd] at hs
      refine ⟨[commandEvent conn servConf (TrimSpace line) username],
        by simp [commandEvent], ?_⟩
      simp only [commandLoop, dispatch, hd]
      simp [quitReached, hs.1]
    | panic => rw [hd] at hs; exact absurd hs id
    | respond u evs resp =>
      rw [hd] at hs
      obtain ⟨hq, hev⟩ := hs
      cases ok with
      | false =>
        refine ⟨commandEvent conn servConf (TrimSpace line) username :: evs, ?_, ?_⟩
        · intro e he
          rcases List.mem_cons.mp he with h | h
          · left; rw [h]; rfl
          · right; exact hev e h
        · simp only [commandLoop, dispatch, hd]
          simp [quitReached, hq]
      | true =>
        obtain ⟨mid, hmid, heq⟩ := ih u
        refine ⟨commandEvent conn servConf (TrimSpace line) username :: (evs ++ mid), ?_, ?_⟩
        · intro e he
          rcases List.mem_cons.mp he with h | h
          · left; rw [h]; rfl
          · rcases List.mem_append.mp h with h | h
            · right; exact hev e h
            · exact hmid e h
        · simp only [commandLoop, dispatch, hd]
          simp [quitReached, hq, heq]

/-! ## C1: start and end events -/

/-- C1, as the claim states it, fails: when the write of the banner fails the
handler returns before the start event, so the session emits no event at all,
neither a start event nor an end event. -/
theorem banner_failure_emits_no_event :
    eventsOf (handleFTPConnection caseless
        (sampleConn false [(lit "USER anna\r\n", true)]) sampleConf) = [] ∧
    ¬ (countStatus Status.Start (eventsOf (handleFTPConnection caseless
          (sampleConn false [(lit "USER anna\r\n", true)]) sampleConf)) = 1 ∧
       countStatus Status.End (eventsOf (handleFTPConnection caseless
          (sampleConn false [(lit "USER anna\r\n", true)]) sampleConf)) = 1) := by
  decide

/-- C1 (amended): a session whose banner write fails emits no event.  A session
whose banner write succeeds emits exactly one start event, and it is the first
event.  When moreover the session ends by a read failure or a failed response
write (no `QUIT` line is reached), its events are the start event, then command
and login events only, then the end event: exactly one end event, after the
start event. -/
theorem session_start_and_end_events (U : GoString → GoString) (conn : Conn)
    (servConf : BeelzebubServiceConfiguration) :
    (conn.bannerWriteOk = false →
      eventsOf (handleFTPConnection U conn servConf) = []) ∧
    (conn.bannerWriteOk = true →
      (∃ tail, eventsOf (handleFTPConnection U conn servConf)
          = startEvent conn servConf :: tail ∧ ∀ e ∈ tail, e.Status ≠ Status.Start) ∧
      countStatus Status.Start (eventsOf (handleFTPConnection U conn servConf)) = 1) ∧
    (conn.bannerWriteOk = true → quitReached U conn.input = false →
      (∃ mid, eventsOf (handleFTPConnection U conn servConf)
          = startEvent conn servConf :: (mid ++ [endEvent conn servConf]) ∧
        ∀ e ∈ mid, e.Status = Status.Interaction ∨ e.Status = Status.Stateless) ∧
      countStatus Status.End (eventsOf (handleFTPConnection U conn servConf)) = 1) := by
  obtain ⟨mid, hmid, heq⟩ := loop_events U conn servConf conn.input []
  have hmidS : ∀ e ∈ mid, e.Status ≠ Status.Start := by
    intro e he
    rcases hmid e he with h | h <;> simp [h]
  have hmidE : ∀ e ∈ mid, e.Status ≠ Status.End := by
    intro e he
    rcases hmid e he with h | h <;> simp [h]
  refine ⟨?_, ?_, ?_⟩
  · intro hb
    simp [handleFTPConnection, hb]
  · intro hb
    have hev : eventsOf (handleFTPConnection U conn servConf)
        = startEvent conn servConf ::
          (mid ++ (if quitReached U conn.input then [] else [endEvent conn servConf])) := by
      simp [handleFTPConnection, hb, heq]
    have htail : ∀ e ∈ mid ++ (if quitReached U conn.input then []
        else [endEvent conn servConf]), e.Status ≠ Status.Start := by
      intro e he
      rcases List.mem_append.mp he with h | h
      · exact hmidS e h
      · split at h
        · simp at h
        · simp at h; rw [h]; simp [endEvent]
    refine ⟨⟨_, hev, htail⟩, ?_⟩
    rw [hev]
    have := countStatus_eq_zero Status.Start _ htail
    simp only [countStatus] at this ⊢
    rw [List.countP_cons, this]
    simp [startEvent]
  · intro hb hq
    have hev : eventsOf (handleFTPConnection U conn servConf)
        = startEvent conn servConf :: (mid ++ [endEvent conn servConf]) := by
      simp [handleFTPConnection, hb, heq, hq]
    refine ⟨⟨mid, hev, hmid⟩, ?_⟩
    rw [hev]
    have h0 := countStatus_eq_zero Status.End mid hmidE
    simp only [countStatus] at h0 ⊢
    rw [List.countP_cons, List.countP_append, h0]
    simp [startEvent, endEvent]

/-- A session of two lines that ends by a read failure, and the same session
cut short by a failed write: each has one start event first and one end event
last. -/
theorem session_start_and_end_events_witness :
    (eventsOf (handleFTPConnection caseless
        (sampleConn true [(lit "USER anna\r\n", true), (lit "PASS x\r\n", true)])
        sampleConf)).map (fun e => e.Status)
      = [Status.Start, Status.Interaction, Status.Interaction, Status.Stateless,
         Status.End] ∧
    countStatus Status.Start (eventsOf (handleFTPConnection caseless
        (sampleConn true [(lit "USER anna\r\n", true), (lit "PASS x\r\n", true)])
        sampleConf)) = 1 ∧
    countStatus Status.End (eventsOf (handleFTPConnection caseless
        (sampleConn true [(lit "USER anna\r\n", false), (lit "PASS x\r\n", true)])
        sampleConf)) = 1 :=
  ⟨by decide,
   ((session_start_and_end_events caseless
      (sampleConn true [(lit "USER anna\r\n", true), (lit "PASS x\r\n", true)])
      sampleConf).2.1 (by decide)).2,
   ((session_start_and_end_events caseless
      (sampleConn true [(lit "USER anna\r\n", false), (lit "PASS x\r\n", true)])
      sampleConf).2.2 (by decide) (by decide)).2⟩

/-! ## C2: the answer to PASS -/

/-- C2 fails on the code: a `PASS` line with an empty or a missing password is
trimmed to `PASS`, which no longer starts with `PASS `; the switch takes the
default case, and the answer is the 502 line, not the 230 line, with no login
event. -/
theorem pass_without_password_is_refused (U : GoString → GoString) (conn : Conn)
    (servConf : BeelzebubServiceConfiguration) (username : GoString) :
    dispatch U conn servConf username (lit "PASS \r\n")
      = Dispatch.respond username [] (lit "502 Command not implemented\r\n") ∧
    dispatch U conn servConf username (lit "PASS\r\n")
      = Dispatch.respond username [] (lit "502 Command not implemented\r\n") := by
  have h1 : TrimSpace (lit "PASS \r\n") = lit "PASS" := by decide
  have h2 : TrimSpace (lit "PASS\r\n") = lit "PASS" := by decide
  have h3 : ToUpper U (lit "PASS") = lit "PASS" := rfl
  have h4 : selectRow (lit "PASS") = Row.default := by decide
  simp [dispatch, h1, h2, h3, h4, caseBody]

/-! ## C3: the login event -/

/-- C3, as the claim states it, fails: the password of the login event is not
the literal text after `PASS `; for the line `PASS  x` (two spaces) that text
is ` x`, and the event carries `x`. -/
theorem login_password_is_not_literal :
    dispatch caseless (sampleConn true []) sampleConf (lit "anna") (lit "PASS  x\r\n")
      = Dispatch.respond (lit "anna")
          [loginEvent (sampleConn true []) sampleConf (lit "PASS  x") (lit "anna") (lit "x")]
          (lit "230 Login successful\r\n") ∧
    (TrimSpace (lit "PASS  x\r\n")).drop 5 = lit " x" ∧
    lit "x" ≠ lit " x" := by
  decide

/-- C3 (amended): a line that takes the `PASS` case is answered by exactly one
login event, traced after the command event of the line and before the write
of the response; the event carries the username in force, and as password the
text after the first five bytes of the trimmed line with the white space
around it removed. -/
theorem pass_traces_one_login_event (U : GoString → GoString) (conn : Conn)
    (servConf : BeelzebubServiceConfiguration) (username line : GoString) (writeOk : Bool)
    (rest : List (GoString × Bool))
    (h : selectRow (ToUpper U (TrimSpace line)) = Row.PASS) :
    dispatch U conn servConf username line
      = Dispatch.respond username
          [loginEvent conn servConf (TrimSpace line) username
            (TrimSpace ((TrimSpace line).drop 5))]
          (lit "230 Login successful\r\n") ∧
    commandLoop U conn servConf username ((line, writeOk) :: rest)
      = Action.read (some line) ::
        Action.trace (commandEvent conn servConf (TrimSpace line) username) ::
        Action.trace (loginEvent conn servConf (TrimSpace line) username
          (TrimSpace ((TrimSpace line).drop 5))) ::
        Action.write (lit "230 Login successful\r\n") ::
        (if writeOk then commandLoop U conn servConf username rest
         else [Action.trace (endEvent conn servConf), Action.close]) := by
  have hd : dispatch U conn servConf username line
      = Dispatch.respond username
          [loginEvent conn servConf (TrimSpace line) username
            (TrimSpace ((TrimSpace line).drop 5))]
          (lit "230 Login successful\r\n") := by
    simp only [dispatch, h, caseBody]
    by_cases hl : (TrimSpace line).length > 5
    · simp [hl, sliceFrom_of_lt]
    · have hdrop : (TrimSpace line).drop 5 = [] := List.drop_eq_nil_of_le (by omega)
      have ht : TrimSpace ([] : GoString) = [] := by decide
      simp [hl, hdrop, ht]
  refine ⟨hd, ?_⟩
  simp only [commandLoop, hd]
  simp

/-- A `pass` line with a password, followed by another line. -/
theorem pass_traces_one_login_event_witness :
    selectRow (ToUpper caseless (TrimSpace (lit "pass hunter2\r\n"))) = Row.PASS ∧
    (dispatch caseless (sampleConn true []) sampleConf (lit "anna") (lit "pass hunter2\r\n")
      = Dispatch.respond (lit "anna")
          [loginEvent (sampleConn true []) sampleConf (TrimSpace (lit "pass hunter2\r\n"))
            (lit "anna") (TrimSpace ((TrimSpace (lit "pass hunter2\r\n")).drop 5))]
          (lit "230 Login successful\r\n") ∧
    commandLoop caseless (sampleConn true []) sampleConf (lit "anna")
        ((lit "pass hunter2\r\n", true) :: [(lit "PWD\r\n", true)])
      = Action.read (some (lit "pass hunter2\r\n")) ::
        Action.trace (commandEvent (sampleConn true []) sampleConf
          (TrimSpace (lit "pass hunter2\r\n")) (lit "anna")) ::
        Action.trace (loginEvent (sampleConn true []) sampleConf
          (TrimSpace (lit "pass hunter2\r\n")) (lit "anna")
          (TrimSpace ((TrimSpace (lit "pass hunter2\r\n")).drop 5))) ::
        Action.write (lit "230 Login successful\r\n") ::
        (if true then commandLoop caseless (sampleConn true []) sampleConf (lit "anna")
            [(lit "PWD\r\n", true)]
         else [Action.trace (endEvent (sampleConn true []) sampleConf), Action.close])) :=
  ⟨by decide,
   pass_traces_one_login_event caseless (sampleConn true []) sampleConf (lit "anna")
     (lit "pass hunter2\r\n") true [(lit "PWD\r\n", true)] (by decide)⟩

/-! ## C4 and C5: QUIT -/

/-- C4 fails on the code: the `QUIT` case returns from the handler instead of
leaving the loop, so a session that reaches a `QUIT` line emits no end event. -/
theorem quit_skips_end_event (U : GoString → GoString) (conn : Conn)
    (servConf : BeelzebubServiceConfiguration)
    (hb : conn.bannerWriteOk = true) (hq : quitReached U conn.input = true) :
    countStatus Status.End (eventsOf (handleFTPConnection U conn servConf)) = 0 := by
  obtain ⟨mid, hmid, heq⟩ := loop_events U conn servConf conn.input []
  apply countStatus_eq_zero
  intro e he
  simp only [handleFTPConnection, hb, if_true, eventsOf_setDeadline, eventsOf_write,
    eventsOf_trace, heq, hq, List.append_nil, List.mem_cons] at he
  rcases he with h | h
  · rw [h]; simp [startEvent]
  · rcases hmid e h with h1 | h1 <;> simp [h1]

/-- The session of a client that sends `QUIT` after the banner: its events are
the start event and the command event, and none has the status `End`. -/
theorem quit_skips_end_event_witness :
    (sampleConn true [(lit "QUIT\r\n", true)]).bannerWriteOk = true ∧
    quitReached caseless (sampleConn true [(lit "QUIT\r\n", true)]).input = true ∧
    eventsOf (handleFTPConnection caseless (sampleConn true [(lit "QUIT\r\n", true)]) sampleConf)
      = [startEvent (sampleConn true [(lit "QUIT\r\n", true)]) sampleConf,
         commandEvent (sampleConn true [(lit "QUIT\r\n", true)]) sampleConf (lit "QUIT") []] ∧
    countStatus Status.End (eventsOf (handleFTPConnection caseless
      (sampleConn true [(lit "QUIT\r\n", true)]) sampleConf)) = 0 :=
  ⟨by decide, by decide, by decide,
   quit_skips_end_event caseless (sampleConn true [(lit "QUIT\r\n", true)]) sampleConf
     (by decide) (by decide)⟩

/-- A line that trims to `QUIT` in some letter case takes the `QUIT` case. -/
theorem selectRow_quit (U : GoString → GoString) (command : GoString)
    (h : command.map upperByte = lit "QUIT") :
    selectRow (ToUpper U command) = Row.QUIT := by
  have hasc : ∀ b ∈ command, b < 128 := by
    intro b hb
    apply upperByte_lt
    have : upperByte b ∈ lit "QUIT" := by
      rw [← h]
      exact List.mem_map_of_mem _ hb
    rw [lit_QUIT] at this
    simp at this
    omega
  rw [ToUpper_ascii U command hasc, h]
  decide

/-- C5: a line that trims to `QUIT`, in any letter case, is answered by the
write of exactly `221 Goodbye` and CRLF, after which the handler closes the
connection and returns; the lines that follow it are not read, traced,
dispatched or answered, so what the loop does is the same whatever follows. -/
theorem quit_says_goodbye_and_stops (U : GoString → GoString) (conn : Conn)
    (servConf : BeelzebubServiceConfiguration) (line : GoString) (writeOk : Bool)
    (rest : List (GoString × Bool))
    (h : (TrimSpace line).map upperByte = lit "QUIT") :
    (∀ username, commandLoop U conn servConf username ((line, writeOk) :: rest)
      = [Action.read (some line),
         Action.trace (commandEvent conn servConf (TrimSpace line) username),
         Action.write (lit "221 Goodbye\r\n"),
         Action.close]) ∧
    (∀ before username, commandLoop U conn servConf username (before ++ (line, writeOk) :: rest)
      = commandLoop U conn servConf username (before ++ [(line, writeOk)])) := by
  have hrow := selectRow_quit U (TrimSpace line) h
  have hone : ∀ (tl : List (GoString × Bool)) (username : GoString),
      commandLoop U conn servConf username ((line, writeOk) :: tl)
      = [Action.read (some line),
         Action.trace (commandEvent conn servConf (TrimSpace line) username),
         Action.write (lit "221 Goodbye\r\n"),
         Action.close] := by
    intro tl username
    simp [commandLoop, dispatch, hrow, caseBody]
  refine ⟨hone rest, ?_⟩
  intro before
  induction before with
  | nil =>
    intro username
    simp only [List.nil_append]
    rw [hone rest, hone []]
  | cons p before ih =>
    obtain ⟨l, ok⟩ := p
    intro username
    simp only [List.cons_append, commandLoop]
    cases dispatch U conn servConf username l with
    | quit g => rfl
    | panic => rfl
    | respond u evs resp =>
      have := ih u
      simp only [List.append_eq] at this ⊢
      rw [this]

/-- The line `quit` in lower case, followed by a line that is never read. -/
theorem quit_says_goodbye_and_stops_witness :
    (TrimSpace (lit "quit\r\n")).map upperByte = lit "QUIT" ∧
    ((∀ username, commandLoop caseless (sampleConn true []) sampleConf username
        ((lit "quit\r\n", true) :: [(lit "SYST\r\n", true)])
      = [Action.read (some (lit "quit\r\n")),
         Action.trace (commandEvent (sampleConn true []) sampleConf
           (TrimSpace (lit "quit\r\n")) username),
         Action.write (lit "221 Goodbye\r\n"),
         Action.close]) ∧
    (∀ before username, commandLoop caseless (sampleConn true []) sampleConf username
        (before ++ (lit "quit\r\n", true) :: [(lit "SYST\r\n", true)])
      = commandLoop caseless (sampleConn true []) sampleConf username
        (before ++ [(lit "quit\r\n", true)]))) :=
  ⟨by decide,
   quit_says_goodbye_and_stops caseless (sampleConn true []) sampleConf (lit "quit\r\n") true
     [(lit "SYST\r\n", true)] (by decide)⟩


/-- A case other than `USER` leaves the username as it was. -/
theorem caseBody_keeps_username (conn : Conn) (servConf : BeelzebubServiceConfiguration)
    (username command : GoString) (row : Row) (hrow : row ≠ Row.USER)
    (u : GoString) (evs : List Event) (resp : GoString)
    (h : caseBody conn servConf username command row = Dispatch.respond u evs resp) :
    u = username := by
  cases row <;> simp [caseBody] at h hrow
  · by_cases hl : 5 < command.length
    · simp [hl, sliceFrom_of_lt] at h
      exact h.1.symm
    · simp [hl] at h
      exact h.1.symm
  all_goals exact h.1.symm

/-- A trimmed line whose first five bytes read `USER ` in upper case takes the
`USER` case and is longer than five bytes. -/
theorem user_line (U : GoString → GoString) (line : GoString)
    (hverb : ((TrimSpace line).take 5).map upperByte = lit "USER ") :
    selectRow (ToUpper U (TrimSpace line)) = Row.USER ∧ (TrimSpace line).length > 5 := by
  constructor
  · rw [ToUpper_head U 5 (TrimSpace line) (lit "USER ") hverb (by decide)]
    simp [selectRow, sourceOrder, selectRowIn_cons, caseCond, HasPrefix, lit_USER]
  · have hlen : ((TrimSpace line).take 5).length = 5 := by
      have := congrArg List.length hverb
      simpa [lit_USER] using this
    by_contra hle
    have h5 : (TrimSpace line).length = 5 := by
      rw [List.length_take] at hlen
      omega
    have htake : (TrimSpace line).take 5 = TrimSpace line := List.take_of_length_le (by omega)
    rw [htake] at hverb
    match hc : TrimSpace line, h5, hverb with
    | [a, b, c, d, e], _, hv =>
      simp [lit_USER] at hv
      have he : e = 32 := by
        have := hv.2.2.2.2
        unfold upperByte at this
        split at this <;> omega
      subst he
      exact TrimSpace_not_space line [a, b, c, d] hc


theorem dispatch_user (U : GoString → GoString) (conn : Conn)
    (servConf : BeelzebubServiceConfiguration) (username line : GoString)
    (hverb : ((TrimSpace line).take 5).map upperByte = lit "USER ") :
    dispatch U conn servConf username line
      = Dispatch.respond (TrimSpace ((TrimSpace line).drop 5)) []
          (lit "331 Password required for " ++ TrimSpace ((TrimSpace line).drop 5)
            ++ lit "\r\n") := by
  obtain ⟨hrow, hlen⟩ := user_line U line hverb
  simp [dispatch, hrow, caseBody, hlen, sliceFrom_of_lt]

/-- The command events of the loop: the one of the first line, then those of
the rest of the session when the line is answered and the write succeeds. -/
theorem commandEventsOf_loop_cons (U : GoString → GoString) (conn : Conn)
    (servConf : BeelzebubServiceConfiguration) (username line : GoString) (ok : Bool)
    (rest : List (GoString × Bool)) :
    commandEventsOf (commandLoop U conn servConf username ((line, ok) :: rest))
      = commandEvent conn servConf (TrimSpace line) username ::
        (match dispatch U conn servConf username line with
         | Dispatch.respond u _ _ =>
           if ok then commandEventsOf (commandLoop U conn servConf u rest) else []
         | _ => []) := by
  have hs := caseBody_sound conn servConf username (TrimSpace line)
    (selectRow (ToUpper U (TrimSpace line)))
  unfold dispatch
  cases hd : caseBody conn servConf username (TrimSpace line)
      (selectRow (ToUpper U (TrimSpace line))) with
  | quit g =>
    simp only [commandLoop, dispatch, hd]
    simp [commandEventsOf, commandEvent]
  | panic =>
    simp only [commandLoop, dispatch, hd]
    simp [commandEventsOf, commandEvent]
  | respond u evs resp =>
    rw [hd] at hs
    have hf : evs.filter (fun e => e.Status = Status.Interaction) = [] := by
      rw [List.filter_eq_nil_iff]
      intro e he
      simp [hs.2 e he]
    simp only [commandLoop, dispatch, hd]
    cases ok <;> simp [commandEventsOf, commandEvent, hf, endEvent]

theorem commandEventsOf_loop_nil (U : GoString → GoString) (conn : Conn)
    (servConf : BeelzebubServiceConfiguration) (username : GoString) :
    commandEventsOf (commandLoop U conn servConf username []) = [] := by
  simp [commandLoop, commandEventsOf, endEvent]

/-- While no line takes the `USER` case, the command events carry the username
the loop was entered with; so does the command event of the line after them. -/
theorem loop_username_frame (U : GoString → GoString) (conn : Conn)
    (servConf : BeelzebubServiceConfiguration) :
    ∀ (later more : List (GoString × Bool)) (username : GoString),
      (∀ p ∈ later, selectRow (ToUpper U (TrimSpace p.1)) ≠ Row.USER) →
      ∀ (i : Nat) (e : Event), i ≤ later.length →
        (commandEventsOf (commandLoop U conn servConf username (later ++ more)))[i]? = some e →
        e.User = username := by
  intro later
  induction later with
  | nil =>
    intro more username _ i e hi he
    have hi0 : i = 0 := by simpa using hi
    subst hi0
    cases more with
    | nil => simp [commandEventsOf_loop_nil] at he
    | cons p more =>
      obtain ⟨l, ok⟩ := p
      simp [commandEventsOf_loop_cons] at he
      rw [← he]; rfl
  | cons p later ih =>
    obtain ⟨l, ok⟩ := p
    intro more username hl i e hi he
    rw [List.cons_append, commandEventsOf_loop_cons] at he
    cases i with
    | zero =>
      simp at he
      rw [← he]; rfl
    | succ i =>
      simp only [List.getElem?_cons_succ] at he
      have hrow : selectRow (ToUpper U (TrimSpace l)) ≠ Row.USER := hl (l, ok) (by simp)
      unfold dispatch at he
      cases hd : caseBody conn servConf username (TrimSpace l)
          (selectRow (ToUpper U (TrimSpace l))) with
      | quit g => simp [hd] at he
      | panic => simp [hd] at he
      | respond u evs resp =>
        have hu := caseBody_keeps_username conn servConf username (TrimSpace l) _ hrow u evs resp hd
        subst hu
        simp only [hd] at he
        cases ok with
        | false => simp at he
        | true =>
          simp only [if_true] at he
          exact ih more u (fun p hp => hl p (by simp [hp])) i e (by simpa using hi) he


theorem commandEventsOf_handle (U : GoString → GoString) (conn : Conn)
    (servConf : BeelzebubServiceConfiguration) :
    commandEventsOf (handleFTPConnection U conn servConf)
      = if conn.bannerWriteOk then commandEventsOf (commandLoop U conn servConf [] conn.input)
        else [] := by
  cases hb : conn.bannerWriteOk <;>
    simp [handleFTPConnection, hb, commandEventsOf, startEvent]

/-! ## C6: the username of the command events -/

/-- C6: once a line `USER n` is processed, the command events of the lines that
follow carry the name `n` with the white space around it removed, as long as no
other line takes the `USER` case, and so does the command event of the line
after those; the command events traced before any line takes the `USER` case
carry the empty username. -/
theorem username_in_command_events (U : GoString → GoString) (conn : Conn)
    (servConf : BeelzebubServiceConfiguration) (later more : List (GoString × Bool))
    (hlater : ∀ p ∈ later, selectRow (ToUpper U (TrimSpace p.1)) ≠ Row.USER) :
    (∀ (username line : GoString) (writeOk : Bool),
      ((TrimSpace line).take 5).map upperByte = lit "USER " →
      ∀ (i : Nat) (e : Event), 1 ≤ i → i ≤ later.length + 1 →
        (commandEventsOf (commandLoop U conn servConf username
          ((line, writeOk) :: (later ++ more))))[i]? = some e →
        e.User = TrimSpace ((TrimSpace line).drop 5)) ∧
    (conn.input = later ++ more →
      ∀ (i : Nat) (e : Event), i ≤ later.length →
        (commandEventsOf (handleFTPConnection U conn servConf))[i]? = some e →
        e.User = []) := by
  constructor
  · intro username line writeOk hverb i e h1 hi he
    rw [commandEventsOf_loop_cons, dispatch_user U conn servConf username line hverb] at he
    obtain ⟨j, rfl⟩ : ∃ j, i = j + 1 := ⟨i - 1, by omega⟩
    simp only [List.getElem?_cons_succ] at he
    cases writeOk with
    | false => simp at he
    | true =>
      simp only [if_true] at he
      exact loop_username_frame U conn servConf later more _ hlater j e (by omega) he
  · intro hin i e hi he
    rw [commandEventsOf_handle, hin] at he
    cases hb : conn.bannerWriteOk with
    | false => simp [hb] at he
    | true =>
      simp only [hb, if_true] at he
      exact loop_username_frame U conn servConf later more [] hlater i e hi he

/-- The lines `PWD`, `user bob`, `SYST`, at the start of a session and after
a line `USER anna`: the command events of `PWD` and of `user bob` carry `anna`
in the second case and the empty username in the first. -/
theorem username_in_command_events_witness :
    (∀ p ∈ [(lit "PWD\r\n", true)], selectRow (ToUpper caseless (TrimSpace p.1)) ≠ Row.USER) ∧
    ((commandEventsOf (commandLoop caseless
        (sampleConn true ([(lit "PWD\r\n", true)]
          ++ [(lit "user bob\r\n", true), (lit "SYST\r\n", true)])) sampleConf []
        ((lit "USER anna\r\n", true) ::
          ([(lit "PWD\r\n", true)] ++ [(lit "user bob\r\n", true), (lit "SYST\r\n", true)])))).map
        (fun e => e.User) = [[], lit "anna", lit "anna", lit "bob"]) ∧
    ((∀ (username line : GoString) (writeOk : Bool),
      ((TrimSpace line).take 5).map upperByte = lit "USER " →
      ∀ (i : Nat) (e : Event), 1 ≤ i → i ≤ [(lit "PWD\r\n", true)].length + 1 →
        (commandEventsOf (commandLoop caseless
          (sampleConn true ([(lit "PWD\r\n", true)]
            ++ [(lit "user bob\r\n", true), (lit "SYST\r\n", true)])) sampleConf username
          ((line, writeOk) :: ([(lit "PWD\r\n", true)]
            ++ [(lit "user bob\r\n", true), (lit "SYST\r\n", true)]))))[i]? = some e →
        e.User = TrimSpace ((TrimSpace line).drop 5)) ∧
    ((sampleConn true ([(lit "PWD\r\n", true)]
          ++ [(lit "user bob\r\n", true), (lit "SYST\r\n", true)])).input
        = [(lit "PWD\r\n", true)] ++ [(lit "user bob\r\n", true), (lit "SYST\r\n", true)] →
      ∀ (i : Nat) (e : Event), i ≤ [(lit "PWD\r\n", true)].length →
        (commandEventsOf (handleFTPConnection caseless
          (sampleConn true ([(lit "PWD\r\n", true)]
            ++ [(lit "user bob\r\n", true), (lit "SYST\r\n", true)])) sampleConf))[i]?
          = some e →
        e.User = [])) :=
  ⟨by decide, by decide,
   username_in_command_events caseless
     (sampleConn true ([(lit "PWD\r\n", true)]
       ++ [(lit "user bob\r\n", true), (lit "SYST\r\n", true)])) sampleConf
     [(lit "PWD\r\n", true)]
     [(lit "user bob\r\n", true), (lit "SYST\r\n", true)] (by decide)⟩

/-! ## C7: the USER case -/

/-- C7: for a line of the form `USER <arg>`, the verb in any letter case, and
whatever the username was, the switch makes the argument with the white space
around it removed the username, answers `331 Password required for ` followed
by that name and CRLF, and traces no event of its own: between the command
event and the write of the response nothing is traced, and the loop goes on
with the new username. -/
theorem user_sets_username (U : GoString → GoString) (conn : Conn)
    (servConf : BeelzebubServiceConfiguration) (username line : GoString) (writeOk : Bool)
    (rest : List (GoString × Bool))
    (hverb : ((TrimSpace line).take 5).map upperByte = lit "USER ") :
    dispatch U conn servConf username line
      = Dispatch.respond (TrimSpace ((TrimSpace line).drop 5)) []
          (lit "331 Password required for " ++ TrimSpace ((TrimSpace line).drop 5)
            ++ lit "\r\n") ∧
    commandLoop U conn servConf username ((line, writeOk) :: rest)
      = Action.read (some line) ::
        Action.trace (commandEvent conn servConf (TrimSpace line) username) ::
        Action.write (lit "331 Password required for "
          ++ TrimSpace ((TrimSpace line).drop 5) ++ lit "\r\n") ::
        (if writeOk then
          commandLoop U conn servConf (TrimSpace ((TrimSpace line).drop 5)) rest
         else [Action.trace (endEvent conn servConf), Action.close]) := by
  have hd := dispatch_user U conn servConf username line hverb
  refine ⟨hd, ?_⟩
  simp only [commandLoop, hd]
  simp

/-- The line `uSeR   bob` sent while the username is `anna`. -/
theorem user_sets_username_witness :
    ((TrimSpace (lit "uSeR   bob \r\n")).take 5).map upperByte = lit "USER " ∧
    TrimSpace ((TrimSpace (lit "uSeR   bob \r\n")).drop 5) = lit "bob" ∧
    (dispatch caseless (sampleConn true []) sampleConf (lit "anna") (lit "uSeR   bob \r\n")
      = Dispatch.respond (TrimSpace ((TrimSpace (lit "uSeR   bob \r\n")).drop 5)) []
          (lit "331 Password required for "
            ++ TrimSpace ((TrimSpace (lit "uSeR   bob \r\n")).drop 5) ++ lit "\r\n") ∧
    commandLoop caseless (sampleConn true []) sampleConf (lit "anna")
        ((lit "uSeR   bob \r\n", true) :: [])
      = Action.read (some (lit "uSeR   bob \r\n")) ::
        Action.trace (commandEvent (sampleConn true []) sampleConf
          (TrimSpace (lit "uSeR   bob \r\n")) (lit "anna")) ::
        Action.write (lit "331 Password required for "
          ++ TrimSpace ((TrimSpace (lit "uSeR   bob \r\n")).drop 5) ++ lit "\r\n") ::
        (if true then
          commandLoop caseless (sampleConn true []) sampleConf
            (TrimSpace ((TrimSpace (lit "uSeR   bob \r\n")).drop 5)) []
         else [Action.trace (endEvent (sampleConn true []) sampleConf), Action.close])) :=
  ⟨by decide, by decide,
   user_sets_username caseless (sampleConn true []) sampleConf (lit "anna")
     (lit "uSeR   bob \r\n") true [] (by decide)⟩


/-- At an ASCII byte `ToUpper` closes the pending run: the upper case of what
stands before the byte, the upper case of the byte, the upper case of what
follows it. -/
theorem upperFrom_split (U : GoString → GoString) (b : Nat) (hb : b < 128)
    (t : GoString) : ∀ (s run : GoString),
      upperFrom U run (s ++ b :: t) = upperFrom U run s ++ upperByte b :: upperFrom U [] t := by
  intro s
  induction s with
  | nil =>
    intro run
    simp [upperFrom, hb]
  | cons a s ih =>
    intro run
    by_cases ha : a < 128
    · simp [upperFrom, ha, ih]
    · simp [upperFrom, ha, ih]

theorem ToUpper_split_space (U : GoString → GoString) (v r : GoString) :
    ToUpper U (v ++ 32 :: r) = ToUpper U v ++ 32 :: ToUpper U r := by
  have := upperFrom_split U 32 (by decide) r v []
  simpa [ToUpper, upperByte] using this

/-- A trimmed line is its verb, followed by nothing or by a space and more. -/
theorem verbOf_split (c : GoString) :
    (32 ∉ c ∧ c = verbOf c) ∨ (32 ∈ c ∧ ∃ r, c = verbOf c ++ 32 :: r) := by
  unfold verbOf
  induction c with
  | nil => left; simp
  | cons a c ih =>
    by_cases ha : a = 32
    · right
      subst ha
      exact ⟨by simp, c, by simp [List.takeWhile]⟩
    · rcases ih with ⟨h1, h2⟩ | ⟨h1, r, h2⟩
      · left
        refine ⟨by simp [h1, Ne.symm ha], ?_⟩
        simp only [List.takeWhile, ha, ne_eq, not_false_eq_true, decide_True]
        rw [← h2]
      · right
        refine ⟨by simp [h1], r, ?_⟩
        simp only [List.takeWhile, ha, ne_eq, not_false_eq_true, decide_True]
        rw [List.cons_append, ← h2]

/-- Whether a pattern that ends with its only space is a prefix of a text with
a space does not depend on what follows that space. -/
theorem isPrefixOf_space_indep (p : GoString) (hp : 32 ∉ p) :
    ∀ (v r1 r2 : GoString),
      (p ++ [32]).isPrefixOf (v ++ 32 :: r1) = (p ++ [32]).isPrefixOf (v ++ 32 :: r2) := by
  induction p with
  | nil =>
    intro v r1 r2
    cases v <;> simp [List.isPrefixOf]
  | cons a p ih =>
    intro v r1 r2
    have ha : a ≠ 32 := fun h => hp (by simp [h])
    have hp1 : 32 ∉ p := fun h => hp (by simp [h])
    cases v with
    | nil =>
      have hb : (a == 32) = false := by simpa using ha
      simp [List.isPrefixOf, hb]
    | cons b v => simp [List.isPrefixOf, ih hp1 v r1 r2]

/-- The case taken for an upper-cased line with a space does not depend on
what follows the first space. -/
theorem selectRow_space_indep (v r1 r2 : GoString) :
    selectRow (v ++ 32 :: r1) = selectRow (v ++ 32 :: r2) := by
  have hne : ∀ (r : GoString) (q : GoString), 32 ∉ q → ((v ++ 32 :: r) == q) = false := by
    intro r q hq
    cases h : ((v ++ 32 :: r) == q) with
    | false => rfl
    | true =>
      exfalso
      have : v ++ 32 :: r = q := by simpa using h
      apply hq
      rw [← this]
      simp
  have hpre : ∀ (p : GoString), 32 ∉ p →
      HasPrefix (v ++ 32 :: r1) (p ++ [32]) = HasPrefix (v ++ 32 :: r2) (p ++ [32]) := by
    intro p hp
    exact isPrefixOf_space_indep p hp v r1 r2
  have e1 := hpre [85, 83, 69, 82] (by decide)
  have e2 := hpre [80, 65, 83, 83] (by decide)
  have e3 := hpre [67, 87, 68] (by decide)
  have e4 := hpre [76, 73, 83, 84] (by decide)
  have e5 := hpre [82, 69, 84, 82] (by decide)
  have e6 := hpre [83, 84, 79, 82] (by decide)
  have e7 := hpre [84, 89, 80, 69] (by decide)
  simp only [List.cons_append, List.nil_append] at e1 e2 e3 e4 e5 e6 e7
  simp only [selectRow, sourceOrder, selectRowIn_cons, selectRowIn_nil, caseCond, lit_USER,
    lit_PASS, lit_SYST, lit_PWD, lit_CWD, lit_LIST, lit_LISTsp, lit_RETR, lit_STOR, lit_PASV,
    lit_TYPE, lit_QUIT, e1, e2, e3, e4, e5, e6, e7,
    hne r1 [83, 89, 83, 84] (by decide), hne r2 [83, 89, 83, 84] (by decide),
    hne r1 [80, 87, 68] (by decide), hne r2 [80, 87, 68] (by decide),
    hne r1 [76, 73, 83, 84] (by decide), hne r2 [76, 73, 83, 84] (by decide),
    hne r1 [80, 65, 83, 86] (by decide), hne r2 [80, 65, 83, 86] (by decide),
    hne r1 [81, 85, 73, 84] (by decide), hne r2 [81, 85, 73, 84] (by decide)]


/-- A line that reads an ASCII pattern in upper case has that pattern as its
upper case. -/
theorem ToUpper_of_map_upper (U : GoString → GoString) (c pat : GoString)
    (h : c.map upperByte = pat) (hpat : ∀ b ∈ pat, b < 128) : ToUpper U c = pat := by
  have := ToUpper_head U c.length c pat (by simpa using h) hpat
  simpa [ToUpper_nil] using this

/-! ## C8: what selects the case -/

/-- C8, as the claim states it, fails: `SYST` and `SYST now` have the same
verb, and the first takes the `SYST` case while the second takes the default
case; likewise `CWD /tmp` takes the `CWD` case and `CWD` alone the default
case. -/
theorem same_verb_different_row :
    verbOf (TrimSpace (lit "SYST\r\n")) = verbOf (TrimSpace (lit "SYST now\r\n")) ∧
    selectRow (ToUpper caseless (TrimSpace (lit "SYST\r\n"))) = Row.SYST ∧
    selectRow (ToUpper caseless (TrimSpace (lit "SYST now\r\n"))) = Row.default ∧
    verbOf (TrimSpace (lit "CWD /tmp\r\n")) = verbOf (TrimSpace (lit "CWD\r\n")) ∧
    selectRow (ToUpper caseless (TrimSpace (lit "CWD /tmp\r\n"))) = Row.CWD ∧
    selectRow (ToUpper caseless (TrimSpace (lit "CWD\r\n"))) = Row.default := by
  decide

/-- C8 (amended): the case the switch takes depends only on the verb of the
trimmed line, compared in upper case, and on whether a space follows the verb:
two lines with the same verb that both go on with a space, or both end with
the verb, take the same case.  For the verb `LIST` the case is the same with
and without an argument. -/
theorem row_depends_on_verb_and_space (U : GoString → GoString) (line1 line2 : GoString)
    (hverb : ToUpper U (verbOf (TrimSpace line1)) = ToUpper U (verbOf (TrimSpace line2)))
    (harg : 32 ∈ TrimSpace line1 ↔ 32 ∈ TrimSpace line2) :
    selectRow (ToUpper U (TrimSpace line1)) = selectRow (ToUpper U (TrimSpace line2)) ∧
    (ToUpper U (verbOf (TrimSpace line1)) = lit "LIST" →
      selectRow (ToUpper U (TrimSpace line1)) = Row.LIST) := by
  generalize TrimSpace line1 = c1 at hverb harg ⊢
  generalize TrimSpace line2 = c2 at hverb harg ⊢
  constructor
  · rcases verbOf_split c1 with ⟨n1, h1⟩ | ⟨s1, r1, h1⟩
    · rcases verbOf_split c2 with ⟨n2, h2⟩ | ⟨s2, r2, h2⟩
      · rw [h1, h2, hverb]
      · exact absurd (harg.mpr s2) n1
    · rcases verbOf_split c2 with ⟨n2, h2⟩ | ⟨s2, r2, h2⟩
      · exact absurd (harg.mp s1) n2
      · rw [h1, h2, ToUpper_split_space, ToUpper_split_space, hverb]
        exact selectRow_space_indep _ _ _
  · intro hl
    rcases verbOf_split c1 with ⟨_, h1⟩ | ⟨_, r1, h1⟩
    · rw [h1, hl]
      decide
    · rw [h1, ToUpper_split_space, hl]
      simp [selectRow, sourceOrder, selectRowIn_cons, caseCond, HasPrefix, lit_USER, lit_PASS,
        lit_SYST, lit_PWD, lit_CWD, lit_LIST, lit_LISTsp]

/-- The lines `cwd /tmp` and `CWD /var/www`. -/
theorem row_depends_on_verb_and_space_witness :
    ToUpper caseless (verbOf (TrimSpace (lit "cwd /tmp\r\n")))
      = ToUpper caseless (verbOf (TrimSpace (lit "CWD /var/www\r\n"))) ∧
    (32 ∈ TrimSpace (lit "cwd /tmp\r\n") ↔ 32 ∈ TrimSpace (lit "CWD /var/www\r\n")) ∧
    selectRow (ToUpper caseless (TrimSpace (lit "cwd /tmp\r\n"))) = Row.CWD ∧
    (selectRow (ToUpper caseless (TrimSpace (lit "cwd /tmp\r\n")))
      = selectRow (ToUpper caseless (TrimSpace (lit "CWD /var/www\r\n"))) ∧
    (ToUpper caseless (verbOf (TrimSpace (lit "cwd /tmp\r\n"))) = lit "LIST" →
      selectRow (ToUpper caseless (TrimSpace (lit "cwd /tmp\r\n"))) = Row.LIST)) :=
  ⟨by decide, by decide, by decide,
   row_depends_on_verb_and_space caseless (lit "cwd /tmp\r\n") (lit "CWD /var/www\r\n")
     (by decide) (by decide)⟩

/-! ## C9: the default case -/

/-- C9: a line whose trimmed upper case meets none of the eleven conditions of
the switch is answered by exactly `502 Command not implemented` and CRLF; the
username is unchanged, nothing is traced between the command event and the
write, and when the write succeeds the loop goes on to read the next line. -/
theorem unmatched_command_not_implemented (U : GoString → GoString) (conn : Conn)
    (servConf : BeelzebubServiceConfiguration) (username line : GoString) (writeOk : Bool)
    (rest : List (GoString × Bool))
    (h : ∀ r ∈ sourceOrder, caseCond (ToUpper U (TrimSpace line)) r = false) :
    dispatch U conn servConf username line
      = Dispatch.respond username [] (lit "502 Command not implemented\r\n") ∧
    commandLoop U conn servConf username ((line, writeOk) :: rest)
      = Action.read (some line) ::
        Action.trace (commandEvent conn servConf (TrimSpace line) username) ::
        Action.write (lit "502 Command not implemented\r\n") ::
        (if writeOk then commandLoop U conn servConf username rest
         else [Action.trace (endEvent conn servConf), Action.close]) := by
  have hrow : selectRow (ToUpper U (TrimSpace line)) = Row.default := by
    simp only [sourceOrder, List.mem_cons, List.mem_singleton, forall_eq_or_imp, forall_eq] at h
    simp [selectRow, sourceOrder, selectRowIn_cons, selectRowIn_nil, h]
  have hd : dispatch U conn servConf username line
      = Dispatch.respond username [] (lit "502 Command not implemented\r\n") := by
    simp [dispatch, hrow, caseBody]
  refine ⟨hd, ?_⟩
  simp only [commandLoop, hd]
  simp

/-- The empty line, followed by the line `FOO`. -/
theorem unmatched_command_not_implemented_witness :
    (∀ r ∈ sourceOrder, caseCond (ToUpper caseless (TrimSpace (lit "\r\n"))) r = false) ∧
    (∀ r ∈ sourceOrder, caseCond (ToUpper caseless (TrimSpace (lit "FOO\r\n"))) r = false) ∧
    (dispatch caseless (sampleConn true []) sampleConf (lit "anna") (lit "\r\n")
      = Dispatch.respond (lit "anna") [] (lit "502 Command not implemented\r\n") ∧
    commandLoop caseless (sampleConn true []) sampleConf (lit "anna")
        ((lit "\r\n", true) :: [(lit "FOO\r\n", true)])
      = Action.read (some (lit "\r\n")) ::
        Action.trace (commandEvent (sampleConn true []) sampleConf (TrimSpace (lit "\r\n"))
          (lit "anna")) ::
        Action.write (lit "502 Command not implemented\r\n") ::
        (if true then commandLoop caseless (sampleConn true []) sampleConf (lit "anna")
            [(lit "FOO\r\n", true)]
         else [Action.trace (endEvent (sampleConn true []) sampleConf), Action.close])) :=
  ⟨by decide, by decide,
   unmatched_command_not_implemented caseless (sampleConn true []) sampleConf (lit "anna")
     (lit "\r\n") true [(lit "FOO\r\n", true)] (by decide)⟩


/-! ## C10: the fixed responses -/

/-- C10: whatever the argument, `RETR <file>` is answered `550 File not found`,
`STOR <file>` `550 Permission denied`, `CWD <dir>`
`250 Directory changed successfully` and `TYPE <mode>` `200 Type set to binary`;
`SYST` is answered `215 UNIX Type: L8`, `PWD` `257 "/" is current directory`
and `PASV` `227 Entering Passive Mode (127,0,0,1,195,149)`; each answer is
that text followed by CRLF, the username is unchanged and no event is added. -/
theorem fixed_responses (U : GoString → GoString) (conn : Conn)
    (servConf : BeelzebubServiceConfiguration) (username line : GoString) :
    (((TrimSpace line).take 5).map upperByte = lit "RETR " →
      dispatch U conn servConf username line
        = Dispatch.respond username [] (lit "550 File not found" ++ lit "\r\n")) ∧
    (((TrimSpace line).take 5).map upperByte = lit "STOR " →
      dispatch U conn servConf username line
        = Dispatch.respond username [] (lit "550 Permission denied" ++ lit "\r\n")) ∧
    (((TrimSpace line).take 4).map upperByte = lit "CWD " →
      dispatch U conn servConf username line
        = Dispatch.respond username []
            (lit "250 Directory changed successfully" ++ lit "\r\n")) ∧
    (((TrimSpace line).take 5).map upperByte = lit "TYPE " →
      dispatch U conn servConf username line
        = Dispatch.respond username [] (lit "200 Type set to binary" ++ lit "\r\n")) ∧
    ((TrimSpace line).map upperByte = lit "SYST" →
      dispatch U conn servConf username line
        = Dispatch.respond username [] (lit "215 UNIX Type: L8" ++ lit "\r\n")) ∧
    ((TrimSpace line).map upperByte = lit "PWD" →
      dispatch U conn servConf username line
        = Dispatch.respond username [] (lit "257 \"/\" is current directory" ++ lit "\r\n")) ∧
    ((TrimSpace line).map upperByte = lit "PASV" →
      dispatch U conn servConf username line
        = Dispatch.respond username []
            (lit "227 Entering Passive Mode (127,0,0,1,195,149)" ++ lit "\r\n")) := by
  refine ⟨?_, ?_, ?_, ?_, ?_, ?_, ?_⟩
  · intro h
    have hrow : selectRow (ToUpper U (TrimSpace line)) = Row.RETR := by
      rw [ToUpper_head U 5 (TrimSpace line) (lit "RETR ") h (by decide)]
      simp [selectRow, sourceOrder, selectRowIn_cons, caseCond, HasPrefix, lit_USER, lit_PASS,
        lit_SYST, lit_PWD, lit_CWD, lit_LIST, lit_LISTsp, lit_RETR]
    rw [dispatch, hrow]
    rfl
  · intro h
    have hrow : selectRow (ToUpper U (TrimSpace line)) = Row.STOR := by
      rw [ToUpper_head U 5 (TrimSpace line) (lit "STOR ") h (by decide)]
      simp [selectRow, sourceOrder, selectRowIn_cons, caseCond, HasPrefix, lit_USER, lit_PASS,
        lit_SYST, lit_PWD, lit_CWD, lit_LIST, lit_LISTsp, lit_RETR, lit_STOR]
    rw [dispatch, hrow]
    rfl
  · intro h
    have hrow : selectRow (ToUpper U (TrimSpace line)) = Row.CWD := by
      rw [ToUpper_head U 4 (TrimSpace line) (lit "CWD ") h (by decide)]
      simp [selectRow, sourceOrder, selectRowIn_cons, caseCond, HasPrefix, lit_USER, lit_PASS,
        lit_SYST, lit_PWD, lit_CWD]
    rw [dispatch, hrow]
    rfl
  · intro h
    have hrow : selectRow (ToUpper U (TrimSpace line)) = Row.TYPE := by
      rw [ToUpper_head U 5 (TrimSpace line) (lit "TYPE ") h (by decide)]
      simp [selectRow, sourceOrder, selectRowIn_cons, caseCond, HasPrefix, lit_USER, lit_PASS,
        lit_SYST, lit_PWD, lit_CWD, lit_LIST, lit_LISTsp, lit_RETR, lit_STOR, lit_PASV,
        lit_TYPE]
    rw [dispatch, hrow]
    rfl
  · intro h
    have hrow : selectRow (ToUpper U (TrimSpace line)) = Row.SYST := by
      rw [ToUpper_of_map_upper U (TrimSpace line) (lit "SYST") h (by decide)]
      decide
    rw [dispatch, hrow]
    rfl
  · intro h
    have hrow : selectRow (ToUpper U (TrimSpace line)) = Row.PWD := by
      rw [ToUpper_of_map_upper U (TrimSpace line) (lit "PWD") h (by decide)]
      decide
    rw [dispatch, hrow]
    rfl
  · intro h
    have hrow : selectRow (ToUpper U (TrimSpace line)) = Row.PASV := by
      rw [ToUpper_of_map_upper U (TrimSpace line) (lit "PASV") h (by decide)]
      decide
    rw [dispatch, hrow]
    rfl


/-- The seven commands of C10 on concrete lines, the verb in mixed case for
`retr`. -/
theorem fixed_responses_witness :
    dispatch caseless (sampleConn true []) sampleConf (lit "anna") (lit "retr anything.txt\r\n")
      = Dispatch.respond (lit "anna") [] (lit "550 File not found" ++ lit "\r\n") ∧
    dispatch caseless (sampleConn true []) sampleConf (lit "anna") (lit "STOR anything.txt\r\n")
      = Dispatch.respond (lit "anna") [] (lit "550 Permission denied" ++ lit "\r\n") ∧
    dispatch caseless (sampleConn true []) sampleConf (lit "anna") (lit "CWD /etc\r\n")
      = Dispatch.respond (lit "anna") []
          (lit "250 Directory changed successfully" ++ lit "\r\n") ∧
    dispatch caseless (sampleConn true []) sampleConf (lit "anna") (lit "TYPE A\r\n")
      = Dispatch.respond (lit "anna") [] (lit "200 Type set to binary" ++ lit "\r\n") ∧
    dispatch caseless (sampleConn true []) sampleConf (lit "anna") (lit "SYST\r\n")
      = Dispatch.respond (lit "anna") [] (lit "215 UNIX Type: L8" ++ lit "\r\n") ∧
    dispatch caseless (sampleConn true []) sampleConf (lit "anna") (lit "PWD\r\n")
      = Dispatch.respond (lit "anna") []
          (lit "257 \"/\" is current directory" ++ lit "\r\n") ∧
    dispatch caseless (sampleConn true []) sampleConf (lit "anna") (lit "PASV\r\n")
      = Dispatch.respond (lit "anna") []
          (lit "227 Entering Passive Mode (127,0,0,1,195,149)" ++ lit "\r\n") :=
  ⟨(fixed_responses caseless (sampleConn true []) sampleConf (lit "anna")
      (lit "retr anything.txt\r\n")).1 (by decide),
   (fixed_responses caseless (sampleConn true []) sampleConf (lit "anna")
      (lit "STOR anything.txt\r\n")).2.1 (by decide),
   (fixed_responses caseless (sampleConn true []) sampleConf (lit "anna")
      (lit "CWD /etc\r\n")).2.2.1 (by decide),
   (fixed_responses caseless (sampleConn true []) sampleConf (lit "anna")
      (lit "TYPE A\r\n")).2.2.2.1 (by decide),
   (fixed_responses caseless (sampleConn true []) sampleConf (lit "anna")
      (lit "SYST\r\n")).2.2.2.2.1 (by decide),
   (fixed_responses caseless (sampleConn true []) sampleConf (lit "anna")
      (lit "PWD\r\n")).2.2.2.2.2.1 (by decide),
   (fixed_responses caseless (sampleConn true []) sampleConf (lit "anna")
      (lit "PASV\r\n")).2.2.2.2.2.2 (by decide)⟩

/-! ## C11: the answer to LIST -/

/-- A trimmed line that reads `LIST`, or starts with `LIST` and a space, in
upper case takes the `LIST` case. -/
theorem list_line (U : GoString → GoString) (command : GoString)
    (h : command.map upperByte = lit "LIST" ∨
      (command.take 5).map upperByte = lit "LIST ") :
    selectRow (ToUpper U command) = Row.LIST := by
  rcases h with h | h
  · rw [ToUpper_of_map_upper U command (lit "LIST") h (by decide)]
    decide
  · rw [ToUpper_head U 5 command (lit "LIST ") h (by decide)]
    simp [selectRow, sourceOrder, selectRowIn_cons, caseCond, HasPrefix, lit_USER, lit_PASS,
      lit_SYST, lit_PWD, lit_CWD, lit_LIST, lit_LISTsp]

/-- C11: every line `LIST` or `LIST <arg>`, the verb in any letter case and
whatever the argument, is answered by one and the same text, the one the bare
line `LIST` is answered by: the four lines written out below, each followed by
CRLF and none with a CR or LF inside, and nothing else.  The first line begins
with `150 `, the last is `226 Transfer complete`; exactly one line begins with
`d`, the directory entry, and exactly one with `-`, the file entry.  The
username is unchanged and no event is added. -/
theorem list_response (U : GoString → GoString) (conn : Conn)
    (servConf : BeelzebubServiceConfiguration) (username line : GoString)
    (h : (TrimSpace line).map upperByte = lit "LIST" ∨
      ((TrimSpace line).take 5).map upperByte = lit "LIST ") :
    dispatch U conn servConf username line
      = Dispatch.respond username []
          (crlfLines [lit "150 Opening ASCII mode data connection for file list",
            lit "drwxr-xr-x  2 ftp ftp 4096 Jan 01 00:00 files",
            lit "-rw-r--r--  1 ftp ftp 1234 Jan 01 00:00 readme.txt",
            lit "226 Transfer complete"]) ∧
    dispatch U conn servConf username line
      = dispatch U conn servConf username (lit "LIST\r\n") ∧
    (lit "150 Opening ASCII mode data connection for file list").take 4 = lit "150 " ∧
    (lit "drwxr-xr-x  2 ftp ftp 4096 Jan 01 00:00 files").head? = some 100 ∧
    (lit "-rw-r--r--  1 ftp ftp 1234 Jan 01 00:00 readme.txt").head? = some 45 ∧
    [lit "150 Opening ASCII mode data connection for file list",
      lit "drwxr-xr-x  2 ftp ftp 4096 Jan 01 00:00 files",
      lit "-rw-r--r--  1 ftp ftp 1234 Jan 01 00:00 readme.txt",
      lit "226 Transfer complete"].countP (fun l => l.head? = some 100) = 1 ∧
    [lit "150 Opening ASCII mode data connection for file list",
      lit "drwxr-xr-x  2 ftp ftp 4096 Jan 01 00:00 files",
      lit "-rw-r--r--  1 ftp ftp 1234 Jan 01 00:00 readme.txt",
      lit "226 Transfer complete"].countP (fun l => l.head? = some 45) = 1 ∧
    (∀ l ∈ [lit "150 Opening ASCII mode data connection for file list",
        lit "drwxr-xr-x  2 ftp ftp 4096 Jan 01 00:00 files",
        lit "-rw-r--r--  1 ftp ftp 1234 Jan 01 00:00 readme.txt",
        lit "226 Transfer complete"], 13 ∉ l ∧ 10 ∉ l) := by
  have hfix : ∀ l : GoString,
      selectRow (ToUpper U (TrimSpace l)) = Row.LIST →
      dispatch U conn servConf username l
        = Dispatch.respond username []
            (crlfLines [lit "150 Opening ASCII mode data connection for file list",
              lit "drwxr-xr-x  2 ftp ftp 4096 Jan 01 00:00 files",
              lit "-rw-r--r--  1 ftp ftp 1234 Jan 01 00:00 readme.txt",
              lit "226 Transfer complete"]) := by
    intro l hl
    rw [dispatch, hl]
    simp only [caseBody]
    congr 1
  have hline := hfix line (list_line U (TrimSpace line) h)
  have hbare := hfix (lit "LIST\r\n") (list_line U (TrimSpace (lit "LIST\r\n")) (Or.inl (by decide)))
  refine ⟨hline, ?_, by decide, by decide, by decide, by decide, by decide, by decide⟩
  rw [hline, hbare]

/-- The line `list -la /srv`: the answer of the bare line `LIST`. -/
theorem list_response_witness :
    ((TrimSpace (lit "list -la /srv\r\n")).map upperByte = lit "LIST" ∨
      ((TrimSpace (lit "list -la /srv\r\n")).take 5).map upperByte = lit "LIST ") ∧
    dispatch caseless (sampleConn true []) sampleConf (lit "anna") (lit "list -la /srv\r\n")
      = Dispatch.respond (lit "anna") []
          (crlfLines [lit "150 Opening ASCII mode data connection for file list",
            lit "drwxr-xr-x  2 ftp ftp 4096 Jan 01 00:00 files",
            lit "-rw-r--r--  1 ftp ftp 1234 Jan 01 00:00 readme.txt",
            lit "226 Transfer complete"]) ∧
    dispatch caseless (sampleConn true []) sampleConf (lit "anna") (lit "list -la /srv\r\n")
      = dispatch caseless (sampleConn true []) sampleConf (lit "anna") (lit "LIST\r\n") :=
  ⟨by decide,
   (list_response caseless (sampleConn true []) sampleConf (lit "anna")
     (lit "list -la /srv\r\n") (by decide)).1,
   (list_response caseless (sampleConn true []) sampleConf (lit "anna")
     (lit "list -la /srv\r\n") (by decide)).2.1⟩

/-! ## C15: no panic -/

/-- The command loop never comes to a panic. -/
theorem loop_no_panic (U : GoString → GoString) (conn : Conn)
    (servConf : BeelzebubServiceConfiguration) :
    ∀ (input : List (GoString × Bool)) (username : GoString),
      Action.panic ∉ commandLoop U conn servConf username input := by
  intro input
  induction input with
  | nil =>
    intro username
    simp [commandLoop]
  | cons p rest ih =>
    obtain ⟨line, ok⟩ := p
    intro username
    have hs := caseBody_sound conn servConf username (TrimSpace line)
      (selectRow (ToUpper U (TrimSpace line)))
    cases hd : caseBody conn servConf username (TrimSpace line)
      (selectRow (ToUpper U (TrimSpace line))) with
    | quit goodbye =>
      simp only [commandLoop, dispatch, hd]
      simp
    | panic => rw [hd] at hs; exact absurd hs id
    | respond u evs resp =>
      simp only [commandLoop, dispatch, hd]
      cases ok with
      | false => simp
      | true => simpa using ih u

/-- C15: whatever bytes a line is made of, dispatching it does not panic: the
slice `command[5:]` is taken only under the guard `len(command) > 5`, under
which it is in range, and the switch returns either a response or, in the
`QUIT` case, after writing the goodbye line; no session contains a panic. -/
theorem dispatch_never_panics (U : GoString → GoString) (conn : Conn)
    (servConf : BeelzebubServiceConfiguration) (username line : GoString) :
    dispatch U conn servConf username line ≠ Dispatch.panic ∧
    ((∃ u evs resp, dispatch U conn servConf username line = Dispatch.respond u evs resp) ∨
      dispatch U conn servConf username line = Dispatch.quit (lit "221 Goodbye\r\n")) ∧
    (∀ command : GoString, command.length > 5 → sliceFrom command 5 = some (command.drop 5)) ∧
    Action.panic ∉ handleFTPConnection U conn servConf := by
  have hs := caseBody_sound conn servConf username (TrimSpace line)
    (selectRow (ToUpper U (TrimSpace line)))
  refine ⟨?_, ?_, fun c hc => sliceFrom_of_lt c hc, ?_⟩
  · unfold dispatch
    intro hp
    rw [hp] at hs
    exact hs
  · unfold dispatch
    cases hd : caseBody conn servConf username (TrimSpace line)
      (selectRow (ToUpper U (TrimSpace line))) with
    | quit goodbye =>
      rw [hd] at hs
      right
      rw [hs.2]
    | panic => rw [hd] at hs; exact absurd hs id
    | respond u evs resp => exact Or.inl ⟨u, evs, resp, rfl⟩
  · have hl := loop_no_panic U conn servConf conn.input []
    cases hb : conn.bannerWriteOk <;> simp [handleFTPConnection, hb, hl]

/-- Lines shorter than five bytes, of exactly `USER ` and `PASS ` before
trimming, and of bytes that are not ASCII. -/
theorem dispatch_never_panics_witness :
    dispatch caseless (sampleConn true []) sampleConf [] [] ≠ Dispatch.panic ∧
    dispatch caseless (sampleConn true []) sampleConf [] (lit "USER ") ≠ Dispatch.panic ∧
    dispatch caseless (sampleConn true []) sampleConf [] (lit "PASS ") ≠ Dispatch.panic ∧
    dispatch caseless (sampleConn true []) sampleConf [] (lit "US\n") ≠ Dispatch.panic ∧
    dispatch caseless (sampleConn true []) sampleConf [] [255, 254, 128, 10] ≠ Dispatch.panic :=
  ⟨(dispatch_never_panics caseless (sampleConn true []) sampleConf [] []).1,
   (dispatch_never_panics caseless (sampleConn true []) sampleConf [] (lit "USER ")).1,
   (dispatch_never_panics caseless (sampleConn true []) sampleConf [] (lit "PASS ")).1,
   (dispatch_never_panics caseless (sampleConn true []) sampleConf [] (lit "US\n")).1,
   (dispatch_never_panics caseless (sampleConn true []) sampleConf [] [255, 254, 128, 10]).1⟩

/-! ## C16: the banner -/

/-- C16: the first write of every session is the banner followed by CRLF, the
banner being the configured one when it is not empty and `220 FTP Server Ready`
when it is; only the setting of the deadline comes before it, so no event is
traced and no line is read before the banner is written. -/
theorem banner_written_first (U : GoString → GoString) (conn : Conn)
    (servConf : BeelzebubServiceConfiguration) :
    (∃ rest, handleFTPConnection U conn servConf
      = Action.setDeadline servConf.DeadlineTimeoutSeconds ::
        Action.write ((if servConf.Banner = [] then lit "220 FTP Server Ready"
          else servConf.Banner) ++ lit "\r\n") :: rest) ∧
    (writesOf (handleFTPConnection U conn servConf)).head?
      = some ((if servConf.Banner = [] then lit "220 FTP Server Ready"
          else servConf.Banner) ++ lit "\r\n") := by
  constructor
  · exact ⟨_, rfl⟩
  · rfl

/-- A session with the default banner and one with a configured banner. -/
theorem banner_written_first_witness :
    (writesOf (handleFTPConnection caseless (sampleConn true [(lit "SYST\r\n", true)])
        sampleConf)).head? = some (lit "220 FTP Server Ready\r\n") ∧
    (writesOf (handleFTPConnection caseless (sampleConn false [])
        { Banner := lit "220 ProFTPD", Description := [], DeadlineTimeoutSeconds := 5 })).head?
      = some (lit "220 ProFTPD\r\n") ∧
    (writesOf (handleFTPConnection caseless (sampleConn true [(lit "SYST\r\n", true)])
        sampleConf)).head?
      = some ((if sampleConf.Banner = [] then lit "220 FTP Server Ready"
          else sampleConf.Banner) ++ lit "\r\n") :=
  ⟨by decide, by decide,
   (banner_written_first caseless (sampleConn true [(lit "SYST\r\n", true)]) sampleConf).2⟩

/-! ## C17: the fields of the events -/

/-- The events a case adds are none, or one login event for the command and
the username in force. -/
theorem caseBody_events (conn : Conn) (servConf : BeelzebubServiceConfiguration)
    (username command : GoString) (row : Row) (u : GoString) (evs : List Event)
    (resp : GoString)
    (h : caseBody conn servConf username command row = Dispatch.respond u evs resp) :
    evs = [] ∨ ∃ password, evs = [loginEvent conn servConf command username password] := by
  by_cases hl : 5 < command.length <;> cases row <;>
    simp [caseBody, hl, sliceFrom_of_lt] at h <;>
    obtain ⟨-, h2, -⟩ := h <;> subst h2 <;> simp

/-- Every event of the command loop carries the fields of the session. -/
theorem loop_carriesSession (U : GoString → GoString) (conn : Conn)
    (servConf : BeelzebubServiceConfiguration) :
    ∀ (input : List (GoString × Bool)) (username : GoString),
      ∀ e ∈ eventsOf (commandLoop U conn servConf username input),
        carriesSession conn servConf e := by
  intro input
  induction input with
  | nil =>
    intro username e he
    simp [commandLoop] at he
    subst he
    simp [carriesSession, endEvent]
  | cons p rest ih =>
    obtain ⟨line, ok⟩ := p
    intro username e he
    have hcmd : carriesSession conn servConf
        (commandEvent conn servConf (TrimSpace line) username) := by
      simp [carriesSession, commandEvent]
    have hend : carriesSession conn servConf (endEvent conn servConf) := by
      simp [carriesSession, endEvent]
    have hbody : ∀ u evs resp, caseBody conn servConf username (TrimSpace line)
        (selectRow (ToUpper U (TrimSpace line))) = Dispatch.respond u evs resp →
        ∀ x ∈ evs, carriesSession conn servConf x := by
      intro u evs resp hd x hx
      rcases caseBody_events conn servConf username (TrimSpace line) _ u evs resp hd
        with h | ⟨pw, h⟩
      · rw [h] at hx
        simp at hx
      · rw [h] at hx
        simp at hx
        subst hx
        simp [carriesSession, loginEvent]
    cases hd : caseBody conn servConf username (TrimSpace line)
      (selectRow (ToUpper U (TrimSpace line))) with
    | quit goodbye =>
      simp only [commandLoop, dispatch, hd] at he
      simp at he
      subst he
      exact hcmd
    | panic =>
      simp only [commandLoop, dispatch, hd] at he
      simp at he
      subst he
      exact hcmd
    | respond u evs resp =>
      simp only [commandLoop, dispatch, hd] at he
      cases ok with
      | false =>
        simp at he
        rcases he with h | h | h
        · subst h; exact hcmd
        · exact hbody u evs resp hd e h
        · subst h; exact hend
      | true =>
        simp at he
        rcases he with h | h | h
        · subst h; exact hcmd
        · exact hbody u evs resp hd e h
        · exact ih u e h

/-- C17: every event of a session, be it the start event, a command event, a
login event or the end event, carries the session identifier, the remote
address, the host and the port of the session, the configured description and
the protocol tag `FTP`, and its status is one of start, interaction, stateless
and end; so none differs from the start event in one of these fields. -/
theorem events_carry_session (U : GoString → GoString) (conn : Conn)
    (servConf : BeelzebubServiceConfiguration) (e : Event)
    (he : e ∈ eventsOf (handleFTPConnection U conn servConf)) :
    e.ID = conn.sessionID ∧ e.RemoteAddr = conn.remoteAddr ∧ e.SourceIp = conn.host ∧
    e.SourcePort = conn.port ∧ e.Description = servConf.Description ∧
    e.Protocol = Protocol.FTP ∧
    (e.Status = Status.Start ∨ e.Status = Status.Interaction ∨
      e.Status = Status.Stateless ∨ e.Status = Status.End) ∧
    e.ID = (startEvent conn servConf).ID ∧
    e.RemoteAddr = (startEvent conn servConf).RemoteAddr ∧
    e.SourceIp = (startEvent conn servConf).SourceIp ∧
    e.SourcePort = (startEvent conn servConf).SourcePort := by
  have hst : e.Status = Status.Start ∨ e.Status = Status.Interaction ∨
      e.Status = Status.Stateless ∨ e.Status = Status.End := by
    cases e.Status <;> simp
  have hc : carriesSession conn servConf e := by
    cases hb : conn.bannerWriteOk with
    | false => simp [handleFTPConnection, hb] at he
    | true =>
      simp [handleFTPConnection, hb] at he
      rcases he with h | h
      · subst h
        simp [carriesSession, startEvent]
      · exact loop_carriesSession U conn servConf conn.input [] e h
  obtain ⟨h1, h2, h3, h4, h5, h6⟩ := hc
  exact ⟨h1, h2, h3, h4, h5, h6, hst, h1, h2, h3, h4⟩

/-- The login event of a session `USER anna`, `PASS x`. -/
theorem events_carry_session_witness :
    loginEvent (sampleConn true [(lit "USER anna\r\n", true), (lit "PASS x\r\n", true)])
        sampleConf (lit "PASS x") (lit "anna") (lit "x")
      ∈ eventsOf (handleFTPConnection caseless
          (sampleConn true [(lit "USER anna\r\n", true), (lit "PASS x\r\n", true)])
          sampleConf) ∧
    (loginEvent (sampleConn true [(lit "USER anna\r\n", true), (lit "PASS x\r\n", true)])
        sampleConf (lit "PASS x") (lit "anna") (lit "x")).ID = lit "7d9a" ∧
    (loginEvent (sampleConn true [(lit "USER anna\r\n", true), (lit "PASS x\r\n", true)])
        sampleConf (lit "PASS x") (lit "anna") (lit "x")).ID
      = (sampleConn true [(lit "USER anna\r\n", true), (lit "PASS x\r\n", true)]).sessionID :=
  ⟨by decide, by decide,
   (events_carry_session caseless
      (sampleConn true [(lit "USER anna\r\n", true), (lit "PASS x\r\n", true)]) sampleConf
      (loginEvent (sampleConn true [(lit "USER anna\r\n", true), (lit "PASS x\r\n", true)])
        sampleConf (lit "PASS x") (lit "anna") (lit "x")) (by decide)).1⟩

/-! ## C18: only USER changes the username -/

/-- C18: a line that does not take the `USER` case leaves the username as it
was: whatever the switch returns, the username it leaves is the one in force,
the loop goes on with it, and in particular the `PASS` case neither clears nor
changes it. -/
theorem only_user_changes_username (U : GoString → GoString) (conn : Conn)
    (servConf : BeelzebubServiceConfiguration) (username line : GoString)
    (h : selectRow (ToUpper U (TrimSpace line)) ≠ Row.USER) :
    nextUsername U conn servConf username line = username ∧
    (∀ u evs resp, dispatch U conn servConf username line = Dispatch.respond u evs resp →
      u = username) ∧
    (selectRow (ToUpper U (TrimSpace line)) ≠ Row.QUIT →
      ∃ evs resp, dispatch U conn servConf username line
        = Dispatch.respond username evs resp) := by
  have hkeep : ∀ u evs resp,
      dispatch U conn servConf username line = Dispatch.respond u evs resp → u = username := by
    intro u evs resp hd
    exact caseBody_keeps_username conn servConf username (TrimSpace line) _ h u evs resp hd
  have hs := caseBody_sound conn servConf username (TrimSpace line)
    (selectRow (ToUpper U (TrimSpace line)))
  refine ⟨?_, hkeep, ?_⟩
  · unfold nextUsername
    cases hd : dispatch U conn servConf username line with
    | quit g => rfl
    | panic => rfl
    | respond u evs resp => exact hkeep u evs resp hd
  · intro hq
    cases hd : dispatch U conn servConf username line with
    | quit g =>
      unfold dispatch at hd
      rw [hd] at hs
      exact absurd hs.1 hq
    | panic =>
      unfold dispatch at hd
      rw [hd] at hs
      exact absurd hs id
    | respond u evs resp =>
      have := hkeep u evs resp hd
      subst this
      exact ⟨evs, resp, rfl⟩

/-- The line `PASS x` dispatched while the username is `anna`. -/
theorem only_user_changes_username_witness :
    selectRow (ToUpper caseless (TrimSpace (lit "PASS x\r\n"))) ≠ Row.USER ∧
    nextUsername caseless (sampleConn true []) sampleConf (lit "anna") (lit "PASS x\r\n")
      = lit "anna" :=
  ⟨by decide,
   (only_user_changes_username caseless (sampleConn true []) sampleConf (lit "anna")
      (lit "PASS x\r\n") (by decide)).1⟩

/-! ## C12: the event list of a session -/

/-- The events a case adds: one login event in the `PASS` case, with the
trimmed text after the fifth byte as password, and none in the other cases. -/
theorem caseBody_events_exact (conn : Conn) (servConf : BeelzebubServiceConfiguration)
    (username command : GoString) (row : Row) (u : GoString) (evs : List Event)
    (resp : GoString)
    (h : caseBody conn servConf username command row = Dispatch.respond u evs resp) :
    evs = if row = Row.PASS then
        [loginEvent conn servConf command username (TrimSpace (command.drop 5))]
      else [] := by
  have ht : TrimSpace ([] : GoString) = [] := by decide
  by_cases hl : 5 < command.length
  · cases row <;> simp [caseBody, hl, sliceFrom_of_lt] at h <;>
      obtain ⟨-, h2, -⟩ := h <;> subst h2 <;> simp
  · have hdrop : command.drop 5 = [] := List.drop_eq_nil_of_le (by omega)
    cases row <;> simp [caseBody, hl] at h <;>
      obtain ⟨-, h2, -⟩ := h <;> subst h2 <;> simp [hdrop, ht]

/-- The events of the command loop on lines that are all answered, none of
them taking the `QUIT` case. -/
theorem loop_events_exact (U : GoString → GoString) (conn : Conn)
    (servConf : BeelzebubServiceConfiguration) :
    ∀ (lines : List GoString) (username : GoString),
      (∀ l ∈ lines, selectRow (ToUpper U (TrimSpace l)) ≠ Row.QUIT) →
      eventsOf (commandLoop U conn servConf username (lines.map (fun l => (l, true))))
        = expectedEvents U conn servConf username lines ++ [endEvent conn servConf] := by
  intro lines
  induction lines with
  | nil =>
    intro username _
    simp [commandLoop, expectedEvents]
  | cons line rest ih =>
    intro username hq
    have hs := caseBody_sound conn servConf username (TrimSpace line)
      (selectRow (ToUpper U (TrimSpace line)))
    have hline : selectRow (ToUpper U (TrimSpace line)) ≠ Row.QUIT := hq line (by simp)
    have hrest := fun u => ih u (fun l hl => hq l (by simp [hl]))
    cases hd : caseBody conn servConf username (TrimSpace line)
      (selectRow (ToUpper U (TrimSpace line))) with
    | quit goodbye =>
      rw [hd] at hs
      exact absurd hs.1 hline
    | panic => rw [hd] at hs; exact absurd hs id
    | respond u evs resp =>
      have hev := caseBody_events_exact conn servConf username (TrimSpace line) _ u evs resp hd
      have hnext : nextUsername U conn servConf username line = u := by
        simp only [nextUsername, dispatch, hd]
      simp only [List.map_cons, commandLoop, dispatch, hd, expectedEvents, hnext]
      simp [hrest u, hev]

/-- C12: in a session whose banner write and response writes succeed and whose
lines, none taking the `QUIT` case, are followed by a read failure, the events
are exactly: the start event; for each line in order its command event, with
the trimmed line and the username in force before the line is dispatched,
followed at once by one login event exactly when the line takes the `PASS`
case; the end event.  With no line at all they are the start event and the end
event. -/
theorem session_event_list (U : GoString → GoString) (conn : Conn)
    (servConf : BeelzebubServiceConfiguration) (lines : List GoString)
    (hb : conn.bannerWriteOk = true)
    (hin : conn.input = lines.map (fun l => (l, true)))
    (hq : ∀ l ∈ lines, selectRow (ToUpper U (TrimSpace l)) ≠ Row.QUIT) :
    eventsOf (handleFTPConnection U conn servConf)
      = startEvent conn servConf ::
        (expectedEvents U conn servConf [] lines ++ [endEvent conn servConf]) ∧
    (lines = [] → eventsOf (handleFTPConnection U conn servConf)
      = [startEvent conn servConf, endEvent conn servConf]) := by
  have hev : eventsOf (handleFTPConnection U conn servConf)
      = startEvent conn servConf ::
        (expectedEvents U conn servConf [] lines ++ [endEvent conn servConf]) := by
    simp [handleFTPConnection, hb, hin, loop_events_exact U conn servConf lines [] hq]
  refine ⟨hev, ?_⟩
  intro hnil
  rw [hev, hnil]
  rfl

/-- The session `USER anna`, `PASS x`, `PWD`, and the idle session. -/
theorem session_event_list_witness :
    expectedEvents caseless
        (sampleConn true ([lit "USER anna\r\n", lit "PASS x\r\n", lit "PWD\r\n"].map
          (fun l => (l, true)))) sampleConf []
        [lit "USER anna\r\n", lit "PASS x\r\n", lit "PWD\r\n"]
      = [commandEvent (sampleConn true ([lit "USER anna\r\n", lit "PASS x\r\n",
            lit "PWD\r\n"].map (fun l => (l, true)))) sampleConf (lit "USER anna") [],
         commandEvent (sampleConn true ([lit "USER anna\r\n", lit "PASS x\r\n",
            lit "PWD\r\n"].map (fun l => (l, true)))) sampleConf (lit "PASS x") (lit "anna"),
         loginEvent (sampleConn true ([lit "USER anna\r\n", lit "PASS x\r\n",
            lit "PWD\r\n"].map (fun l => (l, true)))) sampleConf (lit "PASS x") (lit "anna")
            (lit "x"),
         commandEvent (sampleConn true ([lit "USER anna\r\n", lit "PASS x\r\n",
            lit "PWD\r\n"].map (fun l => (l, true)))) sampleConf (lit "PWD") (lit "anna")] ∧
    (eventsOf (handleFTPConnection caseless
        (sampleConn true ([lit "USER anna\r\n", lit "PASS x\r\n", lit "PWD\r\n"].map
          (fun l => (l, true)))) sampleConf)
      = startEvent (sampleConn true ([lit "USER anna\r\n", lit "PASS x\r\n",
            lit "PWD\r\n"].map (fun l => (l, true)))) sampleConf ::
        (expectedEvents caseless
          (sampleConn true ([lit "USER anna\r\n", lit "PASS x\r\n", lit "PWD\r\n"].map
            (fun l => (l, true)))) sampleConf []
          [lit "USER anna\r\n", lit "PASS x\r\n", lit "PWD\r\n"]
          ++ [endEvent (sampleConn true ([lit "USER anna\r\n", lit "PASS x\r\n",
            lit "PWD\r\n"].map (fun l => (l, true)))) sampleConf]) ∧
    ([lit "USER anna\r\n", lit "PASS x\r\n", lit "PWD\r\n"] = [] →
      eventsOf (handleFTPConnection caseless
        (sampleConn true ([lit "USER anna\r\n", lit "PASS x\r\n", lit "PWD\r\n"].map
          (fun l => (l, true)))) sampleConf)
      = [startEvent (sampleConn true ([lit "USER anna\r\n", lit "PASS x\r\n",
            lit "PWD\r\n"].map (fun l => (l, true)))) sampleConf,
         endEvent (sampleConn true ([lit "USER anna\r\n", lit "PASS x\r\n",
            lit "PWD\r\n"].map (fun l => (l, true)))) sampleConf])) ∧
    eventsOf (handleFTPConnection caseless (sampleConn true []) sampleConf)
      = [startEvent (sampleConn true []) sampleConf, endEvent (sampleConn true []) sampleConf] :=
  ⟨by decide,
   session_event_list caseless
     (sampleConn true ([lit "USER anna\r\n", lit "PASS x\r\n", lit "PWD\r\n"].map
       (fun l => (l, true)))) sampleConf
     [lit "USER anna\r\n", lit "PASS x\r\n", lit "PWD\r\n"] rfl rfl (by decide),
   by decide⟩

/-! ## C13: letter case -/

/-- A byte that is no ASCII letter equals the upper case of a byte exactly when
it equals the byte. -/
theorem beq_upperByte (x b : Nat) (hx : ¬ (65 ≤ x ∧ x ≤ 90) ∧ ¬ (97 ≤ x ∧ x ≤ 122)) :
    (x == upperByte b) = (x == b) := by
  unfold upperByte
  split
  · have h1 : x ≠ b - 32 := by omega
    have h2 : x ≠ b := by omega
    simp [h1, h2]
  · rfl

/-- Upper-casing a text does not change which letter-free sequences it starts
with. -/
theorem isPrefixOf_map_upper (q : GoString) (hq : noLetters q) :
    ∀ s : GoString, q.isPrefixOf (s.map upperByte) = q.isPrefixOf s := by
  induction q with
  | nil => intro s; simp
  | cons x q ih =>
    intro s
    have hx := hq x (by simp)
    have hq1 : noLetters q := fun y hy => hq y (by simp [hy])
    cases s with
    | nil => simp [List.isPrefixOf]
    | cons b s => simp [List.isPrefixOf, beq_upperByte x b hx, ih hq1 s]

/-- Two predicates that agree on a list find the same element. -/
theorem find_agree (p1 p2 : GoString → Bool) :
    ∀ seqs : List GoString, (∀ q ∈ seqs, p1 q = p2 q) → seqs.find? p1 = seqs.find? p2 := by
  intro seqs
  induction seqs with
  | nil => intro _; rfl
  | cons q seqs ih =>
    intro h
    have hq := h q (by simp)
    have hrest := ih (fun x hx => h x (by simp [hx]))
    simp only [List.find?_cons, hq, hrest]

/-- Stripping letter-free sequences commutes with upper-casing. -/
theorem stripLeading_map_upper (seqs : List GoString) (hs : ∀ q ∈ seqs, noLetters q) :
    ∀ (fuel : Nat) (s : GoString),
      stripLeading seqs fuel (s.map upperByte) = (stripLeading seqs fuel s).map upperByte := by
  intro fuel
  induction fuel with
  | zero => intro s; rfl
  | succ fuel ih =>
    intro s
    have hfind : seqs.find? (fun q => q.isPrefixOf (s.map upperByte))
        = seqs.find? (fun q => q.isPrefixOf s) :=
      find_agree _ _ seqs (fun q hq => isPrefixOf_map_upper q (hs q hq) s)
    simp only [stripLeading, hfind]
    cases seqs.find? (fun q => q.isPrefixOf s) with
    | none => rfl
    | some q =>
      simp only
      rw [← List.map_drop, ih]

theorem spaceRunes_noLetters : ∀ q ∈ spaceRunes, noLetters q := by
  unfold noLetters
  decide

theorem spaceRunes_reverse_noLetters :
    ∀ q ∈ spaceRunes.map List.reverse, noLetters q := by
  unfold noLetters
  decide

/-- Trimming commutes with upper-casing the ASCII letters. -/
theorem TrimSpace_map_upper (s : GoString) :
    TrimSpace (s.map upperByte) = (TrimSpace s).map upperByte := by
  have hl : ∀ x : GoString, TrimLeft (x.map upperByte) = (TrimLeft x).map upperByte := by
    intro x
    unfold TrimLeft
    rw [List.length_map]
    exact stripLeading_map_upper spaceRunes spaceRunes_noLetters _ x
  have hr : ∀ x : GoString, TrimRight (x.map upperByte) = (TrimRight x).map upperByte := by
    intro x
    unfold TrimRight
    rw [List.length_map, ← List.map_reverse,
      stripLeading_map_upper _ spaceRunes_reverse_noLetters, List.map_reverse]
  unfold TrimSpace
  rw [hl, hr]

/-- Two texts that are equal once their ASCII letters are upper-cased have the
same upper case. -/
theorem upperFrom_congr (U : GoString → GoString) :
    ∀ (s1 s2 run : GoString), s1.map upperByte = s2.map upperByte →
      upperFrom U run s1 = upperFrom U run s2 := by
  intro s1
  induction s1 with
  | nil =>
    intro s2 run h
    cases s2 with
    | nil => rfl
    | cons b s2 => simp at h
  | cons a s1 ih =>
    intro s2 run h
    cases s2 with
    | nil => simp at h
    | cons b s2 =>
      simp only [List.map_cons, List.cons.injEq] at h
      obtain ⟨hab, hrest⟩ := h
      by_cases ha : a < 128
      · have hb : b < 128 := by
          unfold upperByte at hab
          split at hab <;> split at hab <;> omega
        simp only [upperFrom, ha, hb, if_true, hab, ih s2 [] hrest]
      · have hb : ¬ b < 128 := by
          unfold upperByte at hab
          split at hab <;> split at hab <;> omega
        have hEq : a = b := by
          unfold upperByte at hab
          split at hab <;> split at hab <;> omega
        subst hEq
        simp only [upperFrom, ha, if_false, ih s2 _ hrest]

/-- The text a case other than `USER` answers with depends on the case only. -/
theorem responseText_fixed (conn : Conn) (servConf : BeelzebubServiceConfiguration)
    (username c1 c2 : GoString) (row : Row) (hrow : row ≠ Row.USER) :
    responseText (caseBody conn servConf username c1 row)
      = responseText (caseBody conn servConf username c2 row) := by
  cases row <;> simp [caseBody, responseText] at hrow ⊢
  by_cases h1 : 5 < c1.length <;> by_cases h2 : 5 < c2.length <;>
    simp [h1, h2, sliceFrom_of_lt, responseText]

/-- C13: two lines that are equal once their ASCII letters are upper-cased take
the same case of the switch; in every case other than `USER` they are answered
with the same text; in the `USER` case the two answers are the 331 line with a
name each, and the two names are equal once their ASCII letters are
upper-cased. -/
theorem dispatch_case_insensitive (U : GoString → GoString) (conn : Conn)
    (servConf : BeelzebubServiceConfiguration) (username line1 line2 : GoString)
    (h : line1.map upperByte = line2.map upperByte) :
    selectRow (ToUpper U (TrimSpace line1)) = selectRow (ToUpper U (TrimSpace line2)) ∧
    (selectRow (ToUpper U (TrimSpace line1)) ≠ Row.USER →
      responseText (dispatch U conn servConf username line1)
        = responseText (dispatch U conn servConf username line2)) ∧
    (selectRow (ToUpper U (TrimSpace line1)) = Row.USER →
      ∃ name1 name2, name1.map upperByte = name2.map upperByte ∧
        dispatch U conn servConf username line1
          = Dispatch.respond name1 []
              (lit "331 Password required for " ++ name1 ++ lit "\r\n") ∧
        dispatch U conn servConf username line2
          = Dispatch.respond name2 []
              (lit "331 Password required for " ++ name2 ++ lit "\r\n")) := by
  have hc : (TrimSpace line1).map upperByte = (TrimSpace line2).map upperByte := by
    rw [← TrimSpace_map_upper, ← TrimSpace_map_upper, h]
  have hup : ToUpper U (TrimSpace line1) = ToUpper U (TrimSpace line2) :=
    upperFrom_congr U _ _ [] hc
  have hlen : (TrimSpace line1).length = (TrimSpace line2).length := by
    have := congrArg List.length hc
    simpa using this
  refine ⟨by rw [hup], ?_, ?_⟩
  · intro hrow
    unfold dispatch
    rw [← hup]
    exact responseText_fixed conn servConf username _ _ _ hrow
  · intro hrow
    have hrow2 : selectRow (ToUpper U (TrimSpace line2)) = Row.USER := by rw [← hup]; exact hrow
    by_cases hl : 5 < (TrimSpace line1).length
    · have hl2 : 5 < (TrimSpace line2).length := by omega
      refine ⟨TrimSpace ((TrimSpace line1).drop 5), TrimSpace ((TrimSpace line2).drop 5),
        ?_, ?_, ?_⟩
      · rw [← TrimSpace_map_upper, ← TrimSpace_map_upper, List.map_drop, List.map_drop, hc]
      · simp [dispatch, hrow, caseBody, hl, sliceFrom_of_lt]
      · simp [dispatch, hrow2, caseBody, hl2, sliceFrom_of_lt]
    · have hl2 : ¬ 5 < (TrimSpace line2).length := by omega
      refine ⟨username, username, rfl, ?_, ?_⟩
      · simp [dispatch, hrow, caseBody, hl]
      · simp [dispatch, hrow2, caseBody, hl2]

/-- The lines `user Bob` and `USER bOB`, and the lines `retr a.txt` and
`RETR A.TXT`. -/
theorem dispatch_case_insensitive_witness :
    (lit "user Bob\r\n").map upperByte = (lit "USER bOB\r\n").map upperByte ∧
    responseText (dispatch caseless (sampleConn true []) sampleConf [] (lit "user Bob\r\n"))
      = lit "331 Password required for Bob\r\n" ∧
    responseText (dispatch caseless (sampleConn true []) sampleConf [] (lit "USER bOB\r\n"))
      = lit "331 Password required for bOB\r\n" ∧
    selectRow (ToUpper caseless (TrimSpace (lit "retr a.txt\r\n")))
      = selectRow (ToUpper caseless (TrimSpace (lit "RETR A.TXT\r\n"))) ∧
    (selectRow (ToUpper caseless (TrimSpace (lit "retr a.txt\r\n"))) ≠ Row.USER →
      responseText (dispatch caseless (sampleConn true []) sampleConf [] (lit "retr a.txt\r\n"))
        = responseText (dispatch caseless (sampleConn true []) sampleConf []
            (lit "RETR A.TXT\r\n"))) :=
  ⟨by decide, by decide, by decide,
   (dispatch_case_insensitive caseless (sampleConn true []) sampleConf []
      (lit "retr a.txt\r\n") (lit "RETR A.TXT\r\n") (by decide)).1,
   (dispatch_case_insensitive caseless (sampleConn true []) sampleConf []
      (lit "retr a.txt\r\n") (lit "RETR A.TXT\r\n") (by decide)).2.1⟩

/-! ## C14: the lines of a response -/

/-- What `stripLeading` returns is a suffix of its argument. -/
theorem stripLeading_suffix (seqs : List GoString) :
    ∀ (fuel : Nat) (s : GoString), stripLeading seqs fuel s <:+ s := by
  intro fuel
  induction fuel with
  | zero => intro s; exact List.suffix_refl s
  | succ fuel ih =>
    intro s
    unfold stripLeading
    cases seqs.find? (fun q => q.isPrefixOf s) with
    | none => exact List.suffix_refl s
    | some q => exact (ih (s.drop q.length)).trans (List.drop_suffix _ s)

/-- What `TrimSpace` returns is a contiguous part of its argument. -/
theorem TrimSpace_contiguous (s : GoString) : TrimSpace s <:+: s := by
  have hl : TrimLeft s <:+ s := stripLeading_suffix _ _ s
  have hr : TrimRight (TrimLeft s) <+: TrimLeft s := by
    unfold TrimRight
    have := stripLeading_suffix (spaceRunes.map List.reverse) (TrimLeft s).length
      (TrimLeft s).reverse
    have h2 := List.reverse_prefix.mpr this
    simpa using h2
  exact hr.isInfix.trans hl.isInfix

/-- What `TrimRight` returns does not end with a line feed. -/
theorem TrimRight_not_lf (s t : GoString) : TrimRight s ≠ t ++ [10] := by
  intro h
  have hst := stripLeading_stable (spaceRunes.map List.reverse)
    (by simp [spaceRunes]) s.length s.reverse (by simp)
  unfold TrimRight at h
  have h2 : stripLeading (spaceRunes.map List.reverse) s.length s.reverse
      = 10 :: t.reverse := by
    have := congrArg List.reverse h
    simpa using this
  rw [h2] at hst
  simp [spaceRunes] at hst

/-- The trimmed form of a line whose only line feed is its last byte has no
line feed. -/
theorem TrimSpace_lf_free (body : GoString) (h : 10 ∉ body) :
    10 ∉ TrimSpace (body ++ [10]) := by
  obtain ⟨a, b, hab⟩ := TrimSpace_contiguous (body ++ [10])
  intro hmem
  rcases List.eq_nil_or_concat b with hb | ⟨b1, y, hb⟩
  · subst hb
    rcases List.eq_nil_or_concat (TrimSpace (body ++ [10])) with ht | ⟨t1, x, ht⟩
    · rw [ht] at hmem
      simp at hmem
    · rw [ht] at hab
      have hx : a ++ t1 ++ [x] = body ++ [10] := by simpa using hab
      have := List.append_inj' hx rfl
      have hx10 : x = 10 := by simpa using this.2
      subst hx10
      rw [List.concat_eq_append] at ht
      exact TrimRight_not_lf _ t1 ht
  · subst hb
    have hx : (a ++ TrimSpace (body ++ [10]) ++ b1) ++ [y] = body ++ [10] := by
      simpa using hab
    have := (List.append_inj' hx rfl).1
    apply h
    rw [← this]
    simp [hmem]

/-- The line feeds of a text made of lines without line feed: one a line. -/
theorem count_crlfLines (ls : List GoString) (h : ∀ l ∈ ls, 10 ∉ l) :
    (crlfLines ls).count 10 = ls.length := by
  induction ls with
  | nil => rfl
  | cons l ls ih =>
    have hl : l.count 10 = 0 := List.count_eq_zero_of_not_mem (h l (by simp))
    have hrest := ih (fun x hx => h x (by simp [hx]))
    simp only [crlfLines, List.count_append, hl, hrest, lit_crlf, List.length_cons]
    simp
    omega

/-- A text made of at least one line ends with CRLF. -/
theorem crlfLines_suffix (ls : List GoString) (h : ls ≠ []) :
    lit "\r\n" <:+ crlfLines ls := by
  induction ls with
  | nil => exact absurd rfl h
  | cons l ls ih =>
    cases ls with
    | nil =>
      simp only [crlfLines, List.append_nil]
      exact List.suffix_append l _
    | cons m ms =>
      have := ih (by simp)
      exact this.trans (List.suffix_append _ _)

/-- The answer of a case to a command without line feed, the username having
none either, is made of lines without line feed: four in the `LIST` case, one
in the others. -/
theorem caseBody_lines (conn : Conn) (servConf : BeelzebubServiceConfiguration)
    (username command : GoString) (row : Row) (hc : 10 ∉ command) (hu : 10 ∉ username) :
    ∃ ls, responseText (caseBody conn servConf username command row) = crlfLines ls ∧
      (∀ l ∈ ls, 10 ∉ l) ∧ (if row = Row.LIST then ls.length = 4 else ls.length = 1) := by
  have h331 : 10 ∉ lit "331 Password required for " := by decide
  have harg : 10 ∉ TrimSpace (command.drop 5) := by
    intro hm
    exact hc ((List.drop_suffix 5 command).subset ((TrimSpace_contiguous _).subset hm))
  cases row
  case USER =>
    by_cases hl : 5 < command.length
    · refine ⟨[lit "331 Password required for " ++ TrimSpace (command.drop 5)], ?_, ?_, by simp⟩
      · simp [caseBody, hl, sliceFrom_of_lt, responseText, crlfLines]
      · intro l hmem
        simp only [List.mem_singleton] at hmem
        subst hmem
        simp [h331, harg]
    · refine ⟨[lit "331 Password required for " ++ username], ?_, ?_, by simp⟩
      · simp [caseBody, hl, responseText, crlfLines]
      · intro l hmem
        simp only [List.mem_singleton] at hmem
        subst hmem
        simp [h331, hu]
  case PASS =>
    refine ⟨[lit "230 Login successful"], ?_, by decide, by simp⟩
    by_cases hl : 5 < command.length
    · simp [caseBody, hl, sliceFrom_of_lt, responseText]
      decide
    · simp [caseBody, hl, responseText]
      decide
  case SYST => exact ⟨[lit "215 UNIX Type: L8"], rfl, by decide, by simp⟩
  case PWD => exact ⟨[lit "257 \"/\" is current directory"], rfl, by decide, by simp⟩
  case CWD =>
    exact ⟨[lit "250 Directory changed successfully"], rfl, by decide, by simp⟩
  case LIST =>
    exact ⟨[lit "150 Opening ASCII mode data connection for file list",
      lit "drwxr-xr-x  2 ftp ftp 4096 Jan 01 00:00 files",
      lit "-rw-r--r--  1 ftp ftp 1234 Jan 01 00:00 readme.txt",
      lit "226 Transfer complete"], by rfl, by decide, by simp⟩
  case RETR => exact ⟨[lit "550 File not found"], rfl, by decide, by simp⟩
  case STOR => exact ⟨[lit "550 Permission denied"], rfl, by decide, by simp⟩
  case PASV =>
    exact ⟨[lit "227 Entering Passive Mode (127,0,0,1,195,149)"], rfl, by decide,
      by simp⟩
  case TYPE => exact ⟨[lit "200 Type set to binary"], rfl, by decide, by simp⟩
  case QUIT => exact ⟨[lit "221 Goodbye"], rfl, by decide, by simp⟩
  case default => exact ⟨[lit "502 Command not implemented"], rfl, by decide, by simp⟩

/-- C14: for a line whose only line feed is its last byte, dispatched while
the username has no line feed, the answer is made of lines that contain no
line feed, each followed by CRLF: it ends with CRLF, it has as many line feeds
as lines, and it is a single line in every case but `LIST`; the username left
has no line feed either, so the name the `USER` answer echoes never adds a
line. -/
theorem response_is_crlf_lines (U : GoString → GoString) (conn : Conn)
    (servConf : BeelzebubServiceConfiguration) (username body : GoString)
    (hbody : 10 ∉ body) (huser : 10 ∉ username) :
    (∃ ls, responseText (dispatch U conn servConf username (body ++ [10])) = crlfLines ls ∧
      (∀ l ∈ ls, 10 ∉ l) ∧
      (responseText (dispatch U conn servConf username (body ++ [10]))).count 10 = ls.length ∧
      (selectRow (ToUpper U (TrimSpace (body ++ [10]))) ≠ Row.LIST → ls.length = 1)) ∧
    lit "\r\n" <:+ responseText (dispatch U conn servConf username (body ++ [10])) ∧
    (selectRow (ToUpper U (TrimSpace (body ++ [10]))) ≠ Row.LIST →
      (responseText (dispatch U conn servConf username (body ++ [10]))).count 10 = 1) ∧
    10 ∉ nextUsername U conn servConf username (body ++ [10]) := by
  have hc := TrimSpace_lf_free body hbody
  obtain ⟨ls, hls, hfree, hlen⟩ := caseBody_lines conn servConf username
    (TrimSpace (body ++ [10])) (selectRow (ToUpper U (TrimSpace (body ++ [10])))) hc huser
  have hcount := count_crlfLines ls hfree
  have hne : ls ≠ [] := by
    intro h0
    rw [h0] at hlen
    split at hlen <;> simp at hlen
  have hone : selectRow (ToUpper U (TrimSpace (body ++ [10]))) ≠ Row.LIST → ls.length = 1 := by
    intro hrow
    simpa [hrow] using hlen
  refine ⟨⟨ls, hls, hfree, ?_, hone⟩, ?_, ?_, ?_⟩
  · unfold dispatch
    rw [hls, hcount]
  · unfold dispatch
    rw [hls]
    exact crlfLines_suffix ls hne
  · intro hrow
    unfold dispatch
    rw [hls, hcount, hone hrow]
  · unfold nextUsername dispatch
    cases hd : caseBody conn servConf username (TrimSpace (body ++ [10]))
      (selectRow (ToUpper U (TrimSpace (body ++ [10])))) with
    | quit g => exact huser
    | panic => exact huser
    | respond u evs resp =>
      simp only
      by_cases hrow : selectRow (ToUpper U (TrimSpace (body ++ [10]))) = Row.USER
      · rw [hrow] at hd
        by_cases hl : 5 < (TrimSpace (body ++ [10])).length
        · simp [caseBody, hl, sliceFrom_of_lt] at hd
          rw [← hd.1]
          intro hm
          exact hc ((List.drop_suffix 5 _).subset ((TrimSpace_contiguous _).subset hm))
        · simp [caseBody, hl] at hd
          rw [← hd.1]
          exact huser
      · have := caseBody_keeps_username conn servConf username _ _ hrow u evs resp hd
        rw [this]
        exact huser

/-- The line `USER a` CR `b`, whose name holds a carriage return, and the line
`LIST`. -/
theorem response_is_crlf_lines_witness :
    10 ∉ (lit "USER a\rb\r") ∧ 10 ∉ ([] : GoString) ∧
    responseText (dispatch caseless (sampleConn true []) sampleConf []
      (lit "USER a\rb\r" ++ [10])) = lit "331 Password required for a\rb\r\n" ∧
    (responseText (dispatch caseless (sampleConn true []) sampleConf []
      (lit "LIST\r" ++ [10]))).count 10 = 4 ∧
    (selectRow (ToUpper caseless (TrimSpace (lit "USER a\rb\r" ++ [10]))) ≠ Row.LIST →
      (responseText (dispatch caseless (sampleConn true []) sampleConf []
        (lit "USER a\rb\r" ++ [10]))).count 10 = 1) :=
  ⟨by decide, by decide, by decide, by decide,
   (response_is_crlf_lines caseless (sampleConn true []) sampleConf [] (lit "USER a\rb\r")
      (by decide) (by decide)).2.2.1⟩

/-! ## C19: the guards of the USER and PASS cases -/

theorem caseless_keeps_length : caseTablesKeepLength caseless := by
  intro run hrun
  constructor
  · intro h
    have := hrun 32 h
    omega
  · have : run.filter (fun b => b < 128) = [] := by
      rw [List.filter_eq_nil_iff]
      intro b hb
      have := hrun b hb
      simp
      omega
    simp [caseless, this]

/-- The upper case of a text without space holds no space. -/
theorem upperFrom_no_space (U : GoString → GoString) (hU : caseTablesKeepLength U) :
    ∀ (s run : GoString), (∀ b ∈ run, 128 ≤ b) → 32 ∉ s → 32 ∉ upperFrom U run s := by
  intro s
  induction s with
  | nil =>
    intro run hrun _
    simp only [upperFrom, flushRun]
    split
    · simp
    · exact (hU run hrun).1
  | cons b s ih =>
    intro run hrun hs
    have hb : b ≠ 32 := fun h => hs (by simp [h])
    have hs1 : 32 ∉ s := fun h => hs (by simp [h])
    by_cases hlt : b < 128
    · have hflush : 32 ∉ flushRun U run := by
        simp only [flushRun]
        split
        · simp
        · exact (hU run hrun).1
      have hub : upperByte b ≠ 32 := by
        unfold upperByte
        split <;> omega
      have hrest := ih [] (by simp) hs1
      simp only [upperFrom, hlt, if_true, List.mem_append, List.mem_cons, not_or]
      exact ⟨hflush, fun h => hub h.symm, hrest⟩
    · simp only [upperFrom, hlt, if_false]
      apply ih _ _ hs1
      intro x hx
      rcases List.mem_append.mp hx with h | h
      · exact hrun x h
      · simp at h
        omega

/-- The upper case of a text holds no more ASCII bytes than the text has
bytes. -/
theorem upperFrom_ascii_count (U : GoString → GoString) (hU : caseTablesKeepLength U) :
    ∀ (s run : GoString), (∀ b ∈ run, 128 ≤ b) →
      ((upperFrom U run s).filter (fun b => b < 128)).length ≤ run.length + s.length := by
  intro s
  induction s with
  | nil =>
    intro run hrun
    simp only [upperFrom, flushRun]
    split
    · simp
    · have := (hU run hrun).2
      simp only [List.length_nil, Nat.add_zero]
      exact this
  | cons b s ih =>
    intro run hrun
    by_cases hlt : b < 128
    · have hflush : ((flushRun U run).filter (fun b => b < 128)).length ≤ run.length := by
        simp only [flushRun]
        split
        · simp
        · exact (hU run hrun).2
      have hrest := ih [] (by simp)
      simp only [upperFrom, hlt, if_true, List.filter_append, List.length_append,
        List.length_cons]
      have hcons : ((upperByte b :: upperFrom U [] s).filter (fun b => b < 128)).length
          ≤ 1 + ((upperFrom U [] s).filter (fun b => b < 128)).length := by
        rw [List.filter_cons]
        split <;> simp
        omega
      simp only [List.length_nil, Nat.zero_add] at hrest
      omega
    · simp only [upperFrom, hlt, if_false]
      have := ih (run ++ [b]) (by
        intro x hx
        rcases List.mem_append.mp hx with h | h
        · exact hrun x h
        · simp at h
          omega)
      simp only [List.length_append, List.length_cons, List.length_nil] at this ⊢
      omega

/-- The part of a text before the first occurrence of a byte is determined by
the text. -/
theorem append_cons_left_unique (x : Nat) :
    ∀ (a a1 b b1 : GoString), x ∉ a → x ∉ a1 → a ++ x :: b = a1 ++ x :: b1 → a = a1 := by
  intro a
  induction a with
  | nil =>
    intro a1 b b1 _ h1 h
    cases a1 with
    | nil => rfl
    | cons y a1 =>
      simp at h
      exact absurd (by simp [h.1]) h1
  | cons z a ih =>
    intro a1 b b1 h0 h1 h
    cases a1 with
    | nil =>
      simp at h
      exact absurd (by simp [h.1]) h0
    | cons y a1 =>
      simp only [List.cons_append, List.cons.injEq] at h
      rw [h.1, ih a1 b b1 (fun hm => h0 (by simp [hm])) (fun hm => h1 (by simp [hm])) h.2]

theorem verbOf_no_space (c : GoString) : 32 ∉ verbOf c := by
  unfold verbOf
  intro h
  have := List.mem_takeWhile_imp h
  simp at this

/-- Under the assumption on the case tables, a trimmed line whose upper case
starts with four ASCII bytes other than the space and a space is longer than
five bytes. -/
theorem command_longer_than_five (U : GoString → GoString) (hU : caseTablesKeepLength U)
    (line p : GoString) (hp4 : p.length = 4) (hp : ∀ b ∈ p, b < 128 ∧ b ≠ 32)
    (h : HasPrefix (ToUpper U (TrimSpace line)) (p ++ [32]) = true) :
    (TrimSpace line).length > 5 := by
  have hns := TrimSpace_not_space line
  generalize TrimSpace line = c at h hns
  obtain ⟨t, ht⟩ : ∃ t, ToUpper U c = p ++ 32 :: t := by
    unfold HasPrefix at h
    obtain ⟨t, ht⟩ := List.isPrefixOf_iff_prefix.mp h
    exact ⟨t, by rw [← ht]; simp⟩
  have hp32 : 32 ∉ p := fun hm => (hp 32 hm).2 rfl
  rcases verbOf_split c with ⟨hno, _⟩ | ⟨_, r, hc⟩
  · exfalso
    have := upperFrom_no_space U hU c [] (by simp) hno
    apply this
    show 32 ∈ ToUpper U c
    rw [ht]
    simp
  · have hv := upperFrom_no_space U hU (verbOf c) [] (by simp) (verbOf_no_space c)
    have hsplit : ToUpper U (verbOf c) ++ 32 :: ToUpper U r = p ++ 32 :: t := by
      rw [← ToUpper_split_space, ← hc, ht]
    have hverb : ToUpper U (verbOf c) = p :=
      append_cons_left_unique 32 _ _ _ _ hv hp32 hsplit
    have hcount := upperFrom_ascii_count U hU (verbOf c) [] (by simp)
    have hfilter : p.filter (fun b => b < 128) = p := by
      rw [List.filter_eq_self]
      intro b hb
      simpa using (hp b hb).1
    have hvlen : 4 ≤ (verbOf c).length := by
      have : ((ToUpper U (verbOf c)).filter (fun b => b < 128)).length = 4 := by
        rw [hverb, hfilter, hp4]
      simp only [ToUpper] at this
      simp only [List.length_nil, Nat.zero_add] at hcount
      omega
    have hr : r ≠ [] := by
      intro hr0
      rw [hr0] at hc
      exact hns (verbOf c) hc
    have hrlen : 0 < r.length := List.length_pos.mpr hr
    have hlen := congrArg List.length hc
    simp only [List.length_append, List.length_cons] at hlen
    omega

/-- A text that `stripLeading` consumes whole ends with one of the sequences. -/
theorem stripLeading_nil_suffix (seqs : List GoString) :
    ∀ (fuel : Nat) (s : GoString), s ≠ [] → stripLeading seqs fuel s = [] →
      ∃ q ∈ seqs, q <:+ s := by
  intro fuel
  induction fuel with
  | zero =>
    intro s hs h
    exact absurd h hs
  | succ fuel ih =>
    intro s hs h
    unfold stripLeading at h
    cases hf : seqs.find? (fun q => q.isPrefixOf s) with
    | none =>
      rw [hf] at h
      exact absurd h hs
    | some q =>
      rw [hf] at h
      simp only at h
      have hq : q ∈ seqs := List.mem_of_find?_eq_some hf
      have hpre : q <+: s := by
        have := List.find?_some hf
        exact List.isPrefixOf_iff_prefix.mp this
      obtain ⟨t, ht⟩ := hpre
      have hdrop : s.drop q.length = t := by
        rw [← ht]
        simp
      by_cases ht0 : t = []
      · refine ⟨q, hq, ?_⟩
        rw [← ht, ht0]
        simp
      · rw [hdrop] at h
        obtain ⟨q1, hq1, hsuf⟩ := ih t ht0 h
        refine ⟨q1, hq1, ?_⟩
        rw [← ht]
        exact hsuf.trans (List.suffix_append q t)

/-- What stands after the fifth byte of a trimmed line longer than five bytes
is not empty once trimmed. -/
theorem argument_not_empty (line : GoString) (hlen : (TrimSpace line).length > 5) :
    TrimSpace ((TrimSpace line).drop 5) ≠ [] := by
  have hstable := stripLeading_stable (spaceRunes.map List.reverse) (by simp [spaceRunes])
    (TrimLeft line).length (TrimLeft line).reverse (by simp)
  have hrev : (TrimSpace line).reverse
      = stripLeading (spaceRunes.map List.reverse) (TrimLeft line).length
          (TrimLeft line).reverse := by
    simp [TrimSpace, TrimRight]
  rw [← hrev] at hstable
  generalize TrimSpace line = c at hlen hstable
  have hd : c.drop 5 ≠ [] := by
    intro h0
    have := congrArg List.length h0
    simp at this
    omega
  intro hempty
  have hends : ∃ q ∈ spaceRunes.map List.reverse, q <+: (c.drop 5).reverse := by
    by_cases he : TrimLeft (c.drop 5) = []
    · obtain ⟨q, hq, hsuf⟩ := stripLeading_nil_suffix spaceRunes _ (c.drop 5) hd he
      exact ⟨q.reverse, List.mem_map_of_mem _ hq, List.reverse_prefix.mpr hsuf⟩
    · have hrne : (TrimLeft (c.drop 5)).reverse ≠ [] := by simpa using he
      have hstrip : stripLeading (spaceRunes.map List.reverse) (TrimLeft (c.drop 5)).length
          (TrimLeft (c.drop 5)).reverse = [] := by
        have := congrArg List.reverse hempty
        simpa [TrimSpace, TrimRight] using this
      have hfirst : ∃ q ∈ spaceRunes.map List.reverse,
          q <+: (TrimLeft (c.drop 5)).reverse := by
        cases hn : (TrimLeft (c.drop 5)).length with
        | zero =>
          exact absurd (List.length_eq_zero.mp hn) he
        | succ n =>
          rw [hn] at hstrip
          unfold stripLeading at hstrip
          cases hf : (spaceRunes.map List.reverse).find?
              (fun q => q.isPrefixOf (TrimLeft (c.drop 5)).reverse) with
          | none =>
            rw [hf] at hstrip
            exact absurd hstrip hrne
          | some q =>
            have hp := List.find?_some hf
            exact ⟨q, List.mem_of_find?_eq_some hf, List.isPrefixOf_iff_prefix.mp hp⟩
      obtain ⟨q, hq, hpre⟩ := hfirst
      have hsuf : TrimLeft (c.drop 5) <:+ c.drop 5 := stripLeading_suffix _ _ _
      exact ⟨q, hq, hpre.trans (List.reverse_prefix.mpr hsuf)⟩
  obtain ⟨q, hq, hpre⟩ := hends
  have hpre2 : q <+: c.reverse :=
    hpre.trans (List.reverse_prefix.mpr (List.drop_suffix 5 c))
  rw [List.find?_eq_none] at hstable
  exact hstable q hq (List.isPrefixOf_iff_prefix.mpr hpre2)
/-- The case the switch takes, when it is not the default, is one whose
condition holds. -/
theorem selectRowIn_cond (order : List Row) (u : GoString) (r : Row)
    (h : selectRowIn order u = r) (hr : r ≠ Row.default) : caseCond u r = true := by
  unfold selectRowIn at h
  cases hf : order.find? (caseCond u) with
  | none =>
    rw [hf] at h
    exact absurd h.symm hr
  | some x =>
    rw [hf] at h
    have hx : x = r := by simpa using h
    subst hx
    exact List.find?_some hf

/-- Under the assumption on the case tables, the login event of a line that
takes the `PASS` case has a password that is not empty. -/
theorem pass_password_not_empty (U : GoString → GoString) (hU : caseTablesKeepLength U)
    (line : GoString) (hrow : selectRow (ToUpper U (TrimSpace line)) = Row.PASS) :
    TrimSpace ((TrimSpace line).drop 5) ≠ [] := by
  have hc := selectRowIn_cond sourceOrder _ Row.PASS hrow (by decide)
  simp only [caseCond, lit_PASS] at hc
  exact argument_not_empty line
    (command_longer_than_five U hU line [80, 65, 83, 83] rfl (by decide) hc)

/-- Under the assumption on the case tables, every login event of the command
loop has a password that is not empty. -/
theorem loop_passwords (U : GoString → GoString) (hU : caseTablesKeepLength U) (conn : Conn)
    (servConf : BeelzebubServiceConfiguration) :
    ∀ (input : List (GoString × Bool)) (username : GoString),
      ∀ e ∈ eventsOf (commandLoop U conn servConf username input),
        e.Status = Status.Stateless → e.Password ≠ [] := by
  intro input
  induction input with
  | nil =>
    intro username e he hst
    simp [commandLoop] at he
    subst he
    simp [endEvent] at hst
  | cons p rest ih =>
    obtain ⟨line, ok⟩ := p
    intro username e he hst
    have hcmd : e ≠ commandEvent conn servConf (TrimSpace line) username := by
      intro h
      rw [h] at hst
      simp [commandEvent] at hst
    have hend : e ≠ endEvent conn servConf := by
      intro h
      rw [h] at hst
      simp [endEvent] at hst
    cases hd : caseBody conn servConf username (TrimSpace line)
      (selectRow (ToUpper U (TrimSpace line))) with
    | quit goodbye =>
      simp only [commandLoop, dispatch, hd] at he
      simp at he
      exact absurd he hcmd
    | panic =>
      simp only [commandLoop, dispatch, hd] at he
      simp at he
      exact absurd he hcmd
    | respond u evs resp =>
      have hev := caseBody_events_exact conn servConf username (TrimSpace line) _ u evs resp hd
      have hlogin : e ∈ evs → e.Password ≠ [] := by
        intro hm
        rw [hev] at hm
        by_cases hrow : selectRow (ToUpper U (TrimSpace line)) = Row.PASS
        · simp only [hrow, if_true, List.mem_singleton] at hm
          rw [hm]
          exact pass_password_not_empty U hU line hrow
        · simp [hrow] at hm
      simp only [commandLoop, dispatch, hd] at he
      cases ok with
      | false =>
        simp at he
        rcases he with h | h | h
        · exact absurd h hcmd
        · exact hlogin h
        · exact absurd h hend
      | true =>
        simp at he
        rcases he with h | h | h
        · exact absurd h hcmd
        · exact hlogin h
        · exact ih u e h hst

/-- C19: the case tables being as assumed, a trimmed line whose upper case
starts with `USER ` or with `PASS ` is longer than five bytes, and what stands
after its fifth byte is not empty once trimmed; so the guards
`len(command) > 5` hold whenever they are evaluated: the `USER` case always
replaces the username, by a name that is not empty, the `PASS` case always
traces a password that is not empty, and so does every login event of a
session. -/
theorem guards_always_hold (U : GoString → GoString) (hU : caseTablesKeepLength U)
    (conn : Conn) (servConf : BeelzebubServiceConfiguration) (username line : GoString)
    (h : HasPrefix (ToUpper U (TrimSpace line)) (lit "USER ") = true ∨
      HasPrefix (ToUpper U (TrimSpace line)) (lit "PASS ") = true) :
    (TrimSpace line).length > 5 ∧
    TrimSpace ((TrimSpace line).drop 5) ≠ [] ∧
    (HasPrefix (ToUpper U (TrimSpace line)) (lit "USER ") = true →
      dispatch U conn servConf username line
        = Dispatch.respond (TrimSpace ((TrimSpace line).drop 5)) []
            (lit "331 Password required for " ++ TrimSpace ((TrimSpace line).drop 5)
              ++ lit "\r\n")) ∧
    (HasPrefix (ToUpper U (TrimSpace line)) (lit "PASS ") = true →
      dispatch U conn servConf username line
        = Dispatch.respond username
            [loginEvent conn servConf (TrimSpace line) username
              (TrimSpace ((TrimSpace line).drop 5))]
            (lit "230 Login successful\r\n")) ∧
    (∀ e ∈ eventsOf (handleFTPConnection U conn servConf),
      e.Status = Status.Stateless → e.Password ≠ []) := by
  have hlen : (TrimSpace line).length > 5 := by
    rcases h with h | h
    · rw [lit_USER] at h
      exact command_longer_than_five U hU line [85, 83, 69, 82] rfl (by decide) h
    · rw [lit_PASS] at h
      exact command_longer_than_five U hU line [80, 65, 83, 83] rfl (by decide) h
  refine ⟨hlen, argument_not_empty line hlen, ?_, ?_, ?_⟩
  · intro hu
    have hrow : selectRow (ToUpper U (TrimSpace line)) = Row.USER := by
      simp [selectRow, sourceOrder, selectRowIn_cons, caseCond, hu]
    simp [dispatch, hrow, caseBody, hlen, sliceFrom_of_lt]
  · intro hp
    have hnu : HasPrefix (ToUpper U (TrimSpace line)) (lit "USER ") = false := by
      unfold HasPrefix at hp ⊢
      rw [lit_PASS] at hp
      rw [lit_USER]
      cases hup : ToUpper U (TrimSpace line) with
      | nil => rfl
      | cons a t =>
        rw [hup] at hp
        simp [List.isPrefixOf] at hp
        simp [List.isPrefixOf, ← hp.1]
    have hrow : selectRow (ToUpper U (TrimSpace line)) = Row.PASS := by
      simp [selectRow, sourceOrder, selectRowIn_cons, caseCond, hnu, hp]
    simp [dispatch, hrow, caseBody, hlen, sliceFrom_of_lt]
  · intro e he hst
    cases hb : conn.bannerWriteOk with
    | false => simp [handleFTPConnection, hb] at he
    | true =>
      simp [handleFTPConnection, hb] at he
      rcases he with h1 | h1
      · rw [h1] at hst
        simp [startEvent] at hst
      · exact loop_passwords U hU conn servConf conn.input [] e h1 hst

/-- The line `pass hunter2`, in a script without case. -/
theorem guards_always_hold_witness :
    caseTablesKeepLength caseless ∧
    (HasPrefix (ToUpper caseless (TrimSpace (lit "pass hunter2\r\n"))) (lit "USER ") = true ∨
      HasPrefix (ToUpper caseless (TrimSpace (lit "pass hunter2\r\n"))) (lit "PASS ") = true) ∧
    TrimSpace ((TrimSpace (lit "pass hunter2\r\n")).drop 5) = lit "hunter2" ∧
    (TrimSpace (lit "pass hunter2\r\n")).length > 5 ∧
    TrimSpace ((TrimSpace (lit "pass hunter2\r\n")).drop 5) ≠ [] :=
  ⟨caseless_keeps_length, by decide, by decide,
   (guards_always_hold caseless caseless_keeps_length (sampleConn true []) sampleConf []
      (lit "pass hunter2\r\n") (by decide)).1,
   (guards_always_hold caseless caseless_keeps_length (sampleConn true []) sampleConf []
      (lit "pass hunter2\r\n") (by decide)).2.1⟩

/-! ## C20: the order of the cases -/

/-- A text that starts with `p` starts, in its first four bytes, with the first
four bytes of `p`. -/
theorem take_four_of_start (u p : GoString) (h : HasPrefix u p = true) (hp : 4 ≤ p.length) :
    u.take 4 = p.take 4 := by
  unfold HasPrefix at h
  obtain ⟨t, ht⟩ := List.isPrefixOf_iff_prefix.mp h
  rw [← ht, List.take_append_of_le_length hp]

/-- The condition of a case fixes the first bytes of the upper-cased line. -/
theorem caseCond_key (u : GoString) (r : Row) (hr : r ≠ Row.default)
    (h : caseCond u r = true) : u.take 4 = rowKey r := by
  cases r
  case default => exact absurd rfl hr
  case USER => exact take_four_of_start u _ h (by decide)
  case PASS => exact take_four_of_start u _ h (by decide)
  case CWD => exact take_four_of_start u _ h (by decide)
  case RETR => exact take_four_of_start u _ h (by decide)
  case STOR => exact take_four_of_start u _ h (by decide)
  case TYPE => exact take_four_of_start u _ h (by decide)
  case SYST =>
    have : u = lit "SYST" := by simpa [caseCond] using h
    rw [this]
    decide
  case PWD =>
    have : u = lit "PWD" := by simpa [caseCond] using h
    rw [this]
    decide
  case PASV =>
    have : u = lit "PASV" := by simpa [caseCond] using h
    rw [this]
    decide
  case QUIT =>
    have : u = lit "QUIT" := by simpa [caseCond] using h
    rw [this]
    decide
  case LIST =>
    simp only [caseCond, Bool.or_eq_true, beq_iff_eq] at h
    rcases h with h | h
    · rw [h]
      decide
    · exact take_four_of_start u _ h (by decide)

/-- Two cases whose conditions hold for the same line are the same case. -/
theorem caseCond_exclusive (u : GoString) (r1 r2 : Row) (h1 : r1 ≠ Row.default)
    (h2 : r2 ≠ Row.default) (c1 : caseCond u r1 = true) (c2 : caseCond u r2 = true) :
    r1 = r2 := by
  have hk : rowKey r1 = rowKey r2 := by
    rw [← caseCond_key u r1 h1 c1, ← caseCond_key u r2 h2 c2]
  cases r1 <;> cases r2 <;> simp [rowKey] at hk h1 h2 ⊢

/-- Whatever the order, the switch takes the one case whose condition holds. -/
theorem selectRowIn_unique (order : List Row) (u : GoString)
    (hnd : ∀ x ∈ order, x ≠ Row.default) (r : Row) (hr : r ∈ order)
    (hc : caseCond u r = true) : selectRowIn order u = r := by
  unfold selectRowIn
  cases hf : order.find? (caseCond u) with
  | none =>
    rw [List.find?_eq_none] at hf
    exact absurd hc (hf r hr)
  | some x =>
    have hx : x ∈ order := List.mem_of_find?_eq_some hf
    have hcx : caseCond u x = true := List.find?_some hf
    simp only [Option.getD_some]
    exact caseCond_exclusive u x r (hnd x hx) (hnd r hr) hcx hc

/-- When no condition holds the switch takes the default case. -/
theorem selectRowIn_none (order : List Row) (u : GoString)
    (h : ∀ x ∈ order, caseCond u x = false) : selectRowIn order u = Row.default := by
  unfold selectRowIn
  have : order.find? (caseCond u) = none := by
    rw [List.find?_eq_none]
    intro x hx
    simp [h x hx]
  rw [this]
  rfl

/-- C20: the eleven conditions of the switch exclude one another, a line
meeting at most one of them; hence a switch with the same cases in any other
order takes the same case for every line, and leaves the same response, the
same username and the same events. -/
theorem case_order_irrelevant (U : GoString → GoString) (conn : Conn)
    (servConf : BeelzebubServiceConfiguration) (username line : GoString)
    (order : List Row) (hperm : order.Perm sourceOrder) :
    (∀ r1 ∈ sourceOrder, ∀ r2 ∈ sourceOrder,
      caseCond (ToUpper U (TrimSpace line)) r1 = true →
      caseCond (ToUpper U (TrimSpace line)) r2 = true → r1 = r2) ∧
    selectRowIn order (ToUpper U (TrimSpace line)) = selectRow (ToUpper U (TrimSpace line)) ∧
    dispatchIn order U conn servConf username line
      = dispatch U conn servConf username line := by
  have hsrc : ∀ x ∈ sourceOrder, x ≠ Row.default := by decide
  have hord : ∀ x ∈ order, x ≠ Row.default := fun x hx => hsrc x (hperm.mem_iff.mp hx)
  have hexcl : ∀ r1 ∈ sourceOrder, ∀ r2 ∈ sourceOrder,
      caseCond (ToUpper U (TrimSpace line)) r1 = true →
      caseCond (ToUpper U (TrimSpace line)) r2 = true → r1 = r2 :=
    fun r1 h1 r2 h2 c1 c2 => caseCond_exclusive _ r1 r2 (hsrc r1 h1) (hsrc r2 h2) c1 c2
  have hsel : selectRowIn order (ToUpper U (TrimSpace line))
      = selectRow (ToUpper U (TrimSpace line)) := by
    by_cases hex : ∃ r ∈ sourceOrder, caseCond (ToUpper U (TrimSpace line)) r = true
    · obtain ⟨r, hr, hc⟩ := hex
      rw [selectRow, selectRowIn_unique order _ hord r (hperm.mem_iff.mpr hr) hc,
        selectRowIn_unique sourceOrder _ hsrc r hr hc]
    · have hnone : ∀ x ∈ sourceOrder, caseCond (ToUpper U (TrimSpace line)) x = false := by
        intro x hx
        cases hcx : caseCond (ToUpper U (TrimSpace line)) x with
        | false => rfl
        | true => exact absurd ⟨x, hx, hcx⟩ hex
      rw [selectRow, selectRowIn_none sourceOrder _ hnone,
        selectRowIn_none order _ (fun x hx => hnone x (hperm.mem_iff.mp hx))]
  refine ⟨hexcl, hsel, ?_⟩
  unfold dispatchIn dispatch
  rw [hsel]

/-- The cases in the reverse order, on the line `PASS x`. -/
theorem case_order_irrelevant_witness :
    sourceOrder.reverse.Perm sourceOrder ∧
    dispatchIn sourceOrder.reverse caseless (sampleConn true []) sampleConf (lit "anna")
        (lit "PASS x\r\n")
      = Dispatch.respond (lit "anna")
          [loginEvent (sampleConn true []) sampleConf (lit "PASS x") (lit "anna") (lit "x")]
          (lit "230 Login successful\r\n") ∧
    dispatchIn sourceOrder.reverse caseless (sampleConn true []) sampleConf (lit "anna")
        (lit "PASS x\r\n")
      = dispatch caseless (sampleConn true []) sampleConf (lit "anna") (lit "PASS x\r\n") :=
  ⟨List.reverse_perm sourceOrder, by decide,
   (case_order_irrelevant caseless (sampleConn true []) sampleConf (lit "anna")
      (lit "PASS x\r\n") sourceOrder.reverse (List.reverse_perm sourceOrder)).2.2⟩

end FTP
